import Mathlib

/-!
# Verification of the Flip 7 rules engine

A shallow embedding of the Flip 7 card game engine (`flip_7/core/rules.py`,
`flip_7/core/engine.py`, `flip_7/core/deck.py`, `flip_7/data/models.py`).
Python dataclasses become Lean structures, the mutating engine methods become
functions `Engine → Except String Engine` (a raised `ValueError` becomes
`Except.error` with the same message), `dict` fields keyed by player id become
association lists preserving insertion order (Python dict iteration order),
and the random shuffle is an explicit function parameter (theorems that need
it assume it permutes its input, which `random.shuffle` does).
-/

namespace Flip7

/-- `ActionType` enum from `models.py`. -/
inductive ActionType
  | flip_three
  | freeze
  | second_chance
  | score_modifier
deriving DecidableEq, Repr

/-- The `.value` string of each `ActionType` member (used in error messages). -/
def ActionType.value : ActionType → String
  | .flip_three => "flip_three"
  | .freeze => "freeze"
  | .second_chance => "second_chance"
  | .score_modifier => "score_modifier"

/-- `ModifierType` enum from `models.py`. -/
inductive ModifierType
  | plus_2
  | plus_4
  | plus_6
  | plus_8
  | plus_10
  | multiply_2
deriving DecidableEq, Repr

/-- `RoundEndReason` enum from `models.py`. -/
inductive RoundEndReason
  | all_stayed
  | player_busted
  | deck_exhausted
deriving DecidableEq, Repr

/-- The card union from `models.py`: `NumberCard`, `ActionCard`, `ModifierCard`.
Each carries a `card_id` (a `uuid4` string in Python, here a `Nat`); dataclass
equality compares the id together with the payload, so two physical copies of
the same face value are distinct values. -/
inductive Card
  | number (card_id : Nat) (value : Int)
  | action (card_id : Nat) (action_type : ActionType)
  | modifier (card_id : Nat) (modifier_type : ModifierType) (value : Int)
deriving DecidableEq, Repr

/-- `isinstance(c, NumberCard)`. -/
def Card.isNumber : Card → Bool
  | .number _ _ => true
  | _ => false

/-- `isinstance(c, ActionCard)`. -/
def Card.isAction : Card → Bool
  | .action _ _ => true
  | _ => false

/-- `isinstance(c, ModifierCard)`. -/
def Card.isModifier : Card → Bool
  | .modifier _ _ _ => true
  | _ => false

/-- The `.value` attribute of number and modifier cards. Python `ActionCard`
has no `value` attribute; every call site below only reads `value` from
number or modifier cards, so the `0` default is never observed. -/
def Card.value : Card → Int
  | .number _ v => v
  | .modifier _ _ v => v
  | .action _ _ => 0

/-- Whether a card is the x2 modifier. -/
def Card.isMultiply2 : Card → Bool
  | .modifier _ mt _ => mt == ModifierType.multiply_2
  | _ => false

/-- Whether a card is a Second Chance action card. -/
def Card.isSecondChance : Card → Bool
  | .action _ at_ => at_ == ActionType.second_chance
  | _ => false

/-- `ScoreBreakdown` dataclass from `models.py`. -/
structure ScoreBreakdown where
  base_score : Int
  bonus_points : Int
  multiplier : Int
  flip_7_bonus : Int
  final_score : Int
  has_flip_7 : Bool
  number_card_count : Nat
deriving DecidableEq, Repr

/-- `PlayerState` dataclass from `models.py`. -/
structure PlayerState where
  player_id : String
  name : String
  cards_in_hand : List Card := []
  total_score : Int := 0
  round_score : Int := 0
  has_stayed : Bool := false
  is_busted : Bool := false
  has_second_chance : Bool := false
  flip_three_active : Bool := false
  flip_three_count : Int := 0
deriving DecidableEq, Repr

/-- `RoundState` dataclass from `models.py`. `player_states` is a Python dict
keyed by player id; modelled as an association list in insertion order. -/
structure RoundState where
  round_number : Int
  dealer_id : String
  player_states : List (String × PlayerState) := []
  cards_remaining_in_deck : Int := 0
  is_complete : Bool := false
  end_reason : Option RoundEndReason := none
  winner_ids : List String := []
deriving DecidableEq, Repr

/-- `PlayerInfo` dataclass from `models.py`. -/
structure PlayerInfo where
  player_id : String
  name : String
deriving DecidableEq, Repr

/-- `GameState` dataclass from `models.py` (the `game_id`, timestamp and
metadata fields play no role in any claim and are omitted). -/
structure GameState where
  players : List PlayerInfo := []
  current_round : Option RoundState := none
  round_history : List RoundState := []
  is_complete : Bool := false
  winner_id : Option String := none
  deck : List Card := []
  discard_pile : List Card := []
deriving DecidableEq, Repr

/-- The event union from `data/events.py`, reduced to the event tag plus the
fields the claims inspect. -/
inductive Event
  | gameStarted (player_ids : List String)
  | roundStarted (round_number : Int)
  | cardDealt (player_id : String) (card : Card)
  | playerHit (player_id : String)
  | playerStayed (player_id : String) (round_score : Int) (total_score : Int)
  | playerBusted (player_id : String)
  | actionCardApplied (player_id : String) (action : ActionType)
  | secondChanceUsed (player_id : String)
  | deckReshuffled (cards_reshuffled : Int)
  | roundEnded (round_number : Int) (end_reason : Option RoundEndReason)
  | gameEnded (winner_id : String)
deriving DecidableEq, Repr

/-- The `GameEngine` object: its `game_state` together with the event log
owned by its `EventLogger` (an append-only list). -/
structure Engine where
  game_state : GameState
  events : List Event
deriving DecidableEq, Repr

instance {α β : Type} [DecidableEq α] [DecidableEq β] : DecidableEq (Except α β) :=
  fun a b =>
    match a, b with
    | .ok x, .ok y =>
      if h : x = y then isTrue (by rw [h])
      else isFalse (fun hc => h (Except.ok.inj hc))
    | .error x, .error y =>
      if h : x = y then isTrue (by rw [h])
      else isFalse (fun hc => h (Except.error.inj hc))
    | .ok _, .error _ => isFalse (fun hc => Except.noConfusion hc)
    | .error _, .ok _ => isFalse (fun hc => Except.noConfusion hc)

-- ===========================================================================
-- rules.py
-- ===========================================================================

/-- `WINNING_SCORE` constant from `rules.py`. -/
def WINNING_SCORE : Int := 200

/-- `FLIP_7_BONUS_POINTS` constant from `rules.py`. -/
def FLIP_7_BONUS_POINTS : Int := 15

/-- `FLIP_7_REQUIRED_CARDS` constant from `rules.py`. -/
def FLIP_7_REQUIRED_CARDS : Nat := 7

/-- `calculate_score` from `rules.py`. -/
def calculate_score (cards : List Card) : ScoreBreakdown :=
  let number_cards := cards.filter Card.isNumber
  let modifier_cards := cards.filter Card.isModifier
  let base_score : Int := (number_cards.map Card.value).sum
  let bonus_points : Int :=
    modifier_cards.foldl
      (fun acc c => if c.isMultiply2 then acc else acc + c.value) 0
  let has_multiplier := modifier_cards.any Card.isMultiply2
  let multiplier : Int := if has_multiplier then 2 else 1
  let has_flip_7 := number_cards.length == FLIP_7_REQUIRED_CARDS
  let flip_7_bonus : Int := if has_flip_7 then FLIP_7_BONUS_POINTS else 0
  let final_score := (base_score + bonus_points) * multiplier + flip_7_bonus
  { base_score := base_score
    bonus_points := bonus_points
    multiplier := multiplier
    flip_7_bonus := flip_7_bonus
    final_score := final_score
    has_flip_7 := has_flip_7
    number_card_count := number_cards.length }

/-- `check_flip_7` from `rules.py`. -/
def check_flip_7 (cards : List Card) : Bool :=
  (cards.filter Card.isNumber).length == FLIP_7_REQUIRED_CARDS

/-- `len(xs) != len(set(xs))`: some element occurs twice. -/
def hasDup {α : Type} [BEq α] : List α → Bool
  | [] => false
  | v :: rest => rest.contains v || hasDup rest

/-- `check_for_duplicate_cards` from `rules.py`. -/
def check_for_duplicate_cards (cards : List Card) : Bool :=
  hasDup ((cards.filter Card.isNumber).map Card.value)

/-- Python `max` over the `total_score` of a non-empty dict of player states
(first component is the head, required because `max()` on an empty sequence
raises; all call sites have at least one player). -/
def maxTotalScore (ps0 : PlayerState) (rest : List (String × PlayerState)) : Int :=
  rest.foldl (fun m kv => max m kv.2.total_score) ps0.total_score

/-- `check_win_condition` from `rules.py`: if some total reaches 200, return
the first player (in dict insertion order) holding the maximal total. -/
def check_win_condition (player_states : List (String × PlayerState)) : Option String :=
  match player_states with
  | [] => none
  | kv0 :: rest =>
    let max_score := maxTotalScore kv0.2 rest
    if max_score ≥ WINNING_SCORE then
      match ((kv0 :: rest).filter (fun kv => kv.2.total_score == max_score)).head? with
      | some kv => some kv.1
      | none => none
    else none

/-- `get_round_winners` from `rules.py`. -/
def get_round_winners (round_state : RoundState) : List String :=
  if !round_state.is_complete then []
  else
    match round_state.player_states.filter (fun kv => !kv.2.is_busted) with
    | [] => []
    | kv0 :: rest =>
      let max_score := rest.foldl (fun m kv => max m kv.2.round_score) kv0.2.round_score
      ((kv0 :: rest).filter (fun kv => kv.2.round_score == max_score)).map (·.1)

/-- `ValidationResult` dataclass from `rules.py`. -/
structure ValidationResult where
  is_valid : Bool
  error_message : Option String := none
deriving DecidableEq, Repr

/-- `validate_player_can_stay` from `rules.py`. -/
def validate_player_can_stay (player_state : PlayerState) (_round_state : RoundState) :
    ValidationResult :=
  if player_state.has_stayed then
    ⟨false, some "Player has already stayed"⟩
  else if player_state.is_busted then
    ⟨false, some "Player is busted and cannot stay"⟩
  else if player_state.flip_three_active && player_state.flip_three_count > 0 then
    ⟨false, some ("Player must accept " ++ toString player_state.flip_three_count
      ++ " more cards (Flip Three active)")⟩
  else
    ⟨true, none⟩

/-- `validate_player_can_hit` from `rules.py`. -/
def validate_player_can_hit (player_state : PlayerState) (round_state : RoundState) :
    ValidationResult :=
  if player_state.has_stayed then
    ⟨false, some "Player has already stayed"⟩
  else if player_state.is_busted then
    ⟨false, some "Player is busted and cannot take more cards"⟩
  else if round_state.cards_remaining_in_deck ≤ 0 then
    ⟨false, some "Deck is empty"⟩
  else
    ⟨true, none⟩

/-- `validate_second_chance_usage` from `rules.py`. -/
def validate_second_chance_usage (player_state : PlayerState) (card_to_discard : Card) :
    ValidationResult :=
  if !player_state.has_second_chance then
    ⟨false, some "Player does not have Second Chance card"⟩
  else if !player_state.cards_in_hand.contains card_to_discard then
    ⟨false, some "Card to discard is not in player's hand"⟩
  else
    let number_cards := player_state.cards_in_hand.filter Card.isNumber
    let duplicate_count :=
      (number_cards.filter (fun c => c.value == card_to_discard.value)).length
    if duplicate_count < 2 then
      ⟨false, some ("No duplicate found for card value " ++ toString card_to_discard.value)⟩
    else
      ⟨true, none⟩

/-- `check_round_end_condition` from `rules.py`. -/
def check_round_end_condition (round_state : RoundState) : Bool :=
  round_state.player_states.all (fun kv => kv.2.has_stayed || kv.2.is_busted)
    || round_state.cards_remaining_in_deck ≤ 0

/-- `determine_round_end_reason` from `rules.py`. -/
def determine_round_end_reason (round_state : RoundState) : Option RoundEndReason :=
  if round_state.player_states.any (fun kv => kv.2.is_busted) then
    some RoundEndReason.player_busted
  else if round_state.player_states.all (fun kv => kv.2.has_stayed || kv.2.is_busted) then
    some RoundEndReason.all_stayed
  else if round_state.cards_remaining_in_deck ≤ 0 then
    some RoundEndReason.deck_exhausted
  else
    none

-- ===========================================================================
-- deck.py
-- ===========================================================================

/-- The builders of `create_deck` from `deck.py`, in construction order:
number cards (each value 12..1 appears `value` times, value 0 once), then
3 copies each of Flip Three / Freeze / Second Chance, then the six modifier
cards. Each builder still awaits its `card_id`. -/
def deckSpec : List (Nat → Card) :=
  ((([12, 11, 10, 9, 8, 7, 6, 5, 4, 3, 2, 1] : List Int).map (fun v =>
      List.replicate v.toNat (fun id => Card.number id v))).flatten
    ++ [fun id => Card.number id 0])
  ++ (([ActionType.flip_three, ActionType.freeze, ActionType.second_chance].map
      (fun a => List.replicate 3 (fun id => Card.action id a))).flatten)
  ++ [fun id => Card.modifier id ModifierType.plus_2 2,
      fun id => Card.modifier id ModifierType.plus_4 4,
      fun id => Card.modifier id ModifierType.plus_6 6,
      fun id => Card.modifier id ModifierType.plus_8 8,
      fun id => Card.modifier id ModifierType.plus_10 10,
      fun id => Card.modifier id ModifierType.multiply_2 2]

/-- `create_deck` from `deck.py`, with sequential `card_id`s standing in for
the `uuid4` strings. -/
def create_deck : List Card := deckSpec.enum.map (fun p => p.2 p.1)

-- ===========================================================================
-- engine.py: helpers
-- ===========================================================================

/-- Dict read `player_states[pid]` (first binding, insertion order). -/
def lookupPS (m : List (String × PlayerState)) (pid : String) : Option PlayerState :=
  match m with
  | [] => none
  | kv :: rest => if kv.1 == pid then some kv.2 else lookupPS rest pid

/-- In-place mutation of the `PlayerState` stored under `pid` (a Python dict
has a single binding per key, so only the first binding is touched). -/
def updatePS (m : List (String × PlayerState)) (pid : String)
    (f : PlayerState → PlayerState) : List (String × PlayerState) :=
  match m with
  | [] => []
  | kv :: rest =>
    if kv.1 == pid then (kv.1, f kv.2) :: rest
    else kv :: updatePS rest pid f

/-- In-place mutation of one player of a round. -/
def RoundState.updatePlayer (r : RoundState) (pid : String)
    (f : PlayerState → PlayerState) : RoundState :=
  { r with player_states := updatePS r.player_states pid f }

/-- All hands of a round, concatenated in dict order (the card list that
`end_round` extends the discard pile with). -/
def flattenHands (m : List (String × PlayerState)) : List Card :=
  (m.map (fun kv => kv.2.cards_in_hand)).flatten

/-- `next(p.name for p in players if p.player_id == pid)`: `StopIteration`
when no such player exists. -/
def findPlayerName (gs : GameState) (pid : String) : Except String String :=
  match gs.players.find? (fun p => p.player_id == pid) with
  | some p => .ok p.name
  | none => .error "StopIteration"

/-- `EventLogger.log_event`: append-only. -/
def logEvent (e : Engine) (ev : Event) : Engine :=
  { e with events := e.events ++ [ev] }

/-- Mutate the last element of a list (used for the Python object aliasing:
a `PlayerState` reference stays valid after its round moves to history). -/
def updateLast {α : Type} (f : α → α) : List α → List α
  | [] => []
  | [a] => [f a]
  | a :: b :: rest => a :: updateLast f (b :: rest)

/-- Mutation through a held `PlayerState` reference: the object lives in the
current round while one is active, otherwise in the round just moved to
history. -/
def updatePlayerObject (gs : GameState) (pid : String)
    (f : PlayerState → PlayerState) : GameState :=
  match gs.current_round with
  | some r => { gs with current_round := some (r.updatePlayer pid f) }
  | none => { gs with
      round_history := updateLast (fun r => r.updatePlayer pid f) gs.round_history }

/-- Read a player through the same aliasing as `updatePlayerObject`. -/
def getPlayerAnywhere (gs : GameState) (pid : String) : Option PlayerState :=
  match gs.current_round with
  | some r => lookupPS r.player_states pid
  | none =>
    match gs.round_history.getLast? with
    | some r => lookupPS r.player_states pid
    | none => none

/-- `GameEngine._cards_match`: same variant and same face value / kind
(card ids are ignored). -/
def cards_match : Card → Card → Bool
  | .number _ v1, .number _ v2 => v1 == v2
  | .modifier _ m1 _, .modifier _ m2 _ => m1 == m2
  | .action _ a1, .action _ a2 => a1 == a2
  | _, _ => false

/-- `GameEngine._remove_card_from_deck`: pop the first matching card. -/
def remove_card_from_deck (deck : List Card) (card : Card) : Option Card × List Card :=
  match deck with
  | [] => (none, [])
  | d :: rest =>
    if cards_match card d then (some d, rest)
    else
      let r := remove_card_from_deck rest card
      (r.1, d :: r.2)

/-- The body of `GameEngine._update_player_score` on one player: duplicates
without Second Chance bust the player and zero the round score; otherwise the
round score is recomputed (a pre-existing `is_busted` flag is never reset). -/
def update_player_score_ps (ps : PlayerState) : PlayerState :=
  if check_for_duplicate_cards ps.cards_in_hand && !ps.has_second_chance then
    { ps with is_busted := true, round_score := 0 }
  else
    { ps with round_score := (calculate_score ps.cards_in_hand).final_score }

/-- `GameEngine._update_player_score` (all call sites have a live round). -/
def update_player_score (gs : GameState) (pid : String) : GameState :=
  match gs.current_round with
  | some r => { gs with current_round := some (r.updatePlayer pid update_player_score_ps) }
  | none => gs

/-- `GameEngine._reshuffle_deck`: move the shuffled discard pile into the
deck. `shuffle` stands for `shuffle_deck` (`random.shuffle` on a copy). -/
def reshuffle_deck (shuffle : List Card → List Card) (e : Engine) : Engine :=
  if e.game_state.discard_pile.length == 0 then e
  else
    let shuffled := shuffle e.game_state.discard_pile
    let gs1 := { e.game_state with deck := shuffled, discard_pile := [] }
    logEvent { game_state := gs1, events := e.events }
      (Event.deckReshuffled (shuffled.length : Int))

-- ===========================================================================
-- engine.py: operations
-- ===========================================================================

/-- `GameEngine.start_new_game`. The `uuid4` player ids are supplied by
`player_ids` and the deck shuffle by `shuffle`. -/
def start_new_game (shuffle : List Card → List Card) (player_ids : Nat → String)
    (player_names : List String) : Except String Engine :=
  if player_names.length < 2 then
    .error "Need at least 2 players to start a game"
  else if hasDup player_names then
    .error "Player names must be unique"
  else
    let players := player_names.enum.map
      (fun p => ({ player_id := player_ids p.1, name := p.2 } : PlayerInfo))
    let deck := shuffle create_deck
    .ok { game_state := { players := players, deck := deck, discard_pile := [] },
          events := [Event.gameStarted (players.map (·.player_id))] }

/-- `GameEngine.start_new_round`. -/
def start_new_round (e : Engine) : Except String Engine :=
  if e.game_state.is_complete then .error "Game is already complete"
  else
    match e.game_state.players with
    | [] => .error "ZeroDivisionError"
    | p0 :: _ =>
      let round_number : Int := (e.game_state.round_history.length : Int) + 1
      let dealer_index := e.game_state.round_history.length % e.game_state.players.length
      let dealer := (e.game_state.players.get? dealer_index).getD p0
      let base_states := e.game_state.players.map
        (fun p => (p.player_id, ({ player_id := p.player_id, name := p.name } : PlayerState)))
      let player_states :=
        match e.game_state.round_history.getLast? with
        | none => base_states
        | some last_round =>
          base_states.map (fun kv =>
            match lookupPS last_round.player_states kv.1 with
            | some lps => (kv.1, { kv.2 with total_score := lps.total_score })
            | none => kv)
      let round_state : RoundState :=
        { round_number := round_number
          dealer_id := dealer.player_id
          player_states := player_states
          cards_remaining_in_deck := (e.game_state.deck.length : Int) }
      .ok (logEvent
        { e with game_state := { e.game_state with current_round := some round_state } }
        (Event.roundStarted round_number))

/-- `GameEngine._check_game_end`: called at the end of `end_round`; reads the
just-archived round. In Python the winner-name lookup happens after
`is_complete`/`winner_id` are assigned and can only fail on a state whose
round contains a player missing from `players`; here a failing lookup makes
the whole call fail, which agrees with Python on every returning path. -/
def check_game_end (e : Engine) : Except String Engine :=
  match e.game_state.round_history.getLast? with
  | none => .ok e
  | some last_round =>
    match check_win_condition last_round.player_states with
    | none => .ok e
    | some winner_id =>
      match findPlayerName e.game_state winner_id with
      | .error msg => .error msg
      | .ok _ =>
        let gs1 := { e.game_state with is_complete := true, winner_id := some winner_id }
        .ok (logEvent { game_state := gs1, events := e.events } (Event.gameEnded winner_id))

/-- The per-player finalization loop of `end_round`: players who neither
stayed nor busted are treated as a forced stay and bank their hand's score. -/
def endAdjustPS (kv : String × PlayerState) : String × PlayerState :=
  if !kv.2.has_stayed && !kv.2.is_busted then
    (kv.1,
      let sb := calculate_score kv.2.cards_in_hand
      { kv.2 with round_score := sb.final_score,
                  total_score := kv.2.total_score + sb.final_score })
  else kv

/-- The round mutations of `end_round`, in source order: mark complete,
compute the end reason, compute the round winners (before the forced-stay
score updates), then apply the forced-stay score updates. -/
def completeRound (r : RoundState) : RoundState :=
  let r1 := { r with is_complete := true }
  let r2 := { r1 with end_reason := determine_round_end_reason r1 }
  let r3 := { r2 with winner_ids := get_round_winners r2 }
  { r3 with player_states := r3.player_states.map endAdjustPS }

/-- `GameEngine.end_round`. Order as in the source: complete the round
(`completeRound`), log `RoundEnded`, move all hands to the discard pile,
archive the round, clear `current_round`, then check the game-level win
condition. -/
def end_round (e : Engine) : Except String Engine :=
  match e.game_state.current_round with
  | none => .error "No active round"
  | some r =>
    let r4 := completeRound r
    let e1 := logEvent e (Event.roundEnded r4.round_number r4.end_reason)
    let gs1 := { e1.game_state with
      discard_pile := e1.game_state.discard_pile ++ flattenHands r4.player_states
      round_history := e1.game_state.round_history ++ [r4]
      current_round := none }
    check_game_end { game_state := gs1, events := e1.events }

/-- `GameEngine._handle_player_bust`: log the bust, end the round when every
player is now resolved. -/
def handle_player_bust (e : Engine) (pid : String) : Except String Engine :=
  match e.game_state.current_round with
  | none => .error "No active round"
  | some r =>
    match findPlayerName e.game_state pid with
    | .error msg => .error msg
    | .ok _ =>
      let e1 := logEvent e (Event.playerBusted pid)
      if check_round_end_condition r then end_round e1 else .ok e1

/-- Step (c) of `deal_card_to_player`: reshuffle transparently when the deck
just emptied and the discard pile is non-empty, then mirror the deck count
into the round again. -/
def maybeReshuffle (shuffle : List Card → List Card) (e1 : Engine) : Engine :=
  if e1.game_state.deck.length == 0 && e1.game_state.discard_pile.length > 0 then
    let er := reshuffle_deck shuffle e1
    match er.game_state.current_round with
    | some r =>
      let r' := { r with cards_remaining_in_deck := (er.game_state.deck.length : Int) }
      { er with game_state := { er.game_state with current_round := some r' } }
    | none => er
  else e1

/-- The Flip Three decrement of step (g) of `deal_card_to_player`. -/
def flipDecrement (p : PlayerState) : PlayerState :=
  let c1 := p.flip_three_count - 1
  if c1 == 0 then { p with flip_three_count := c1, flip_three_active := false }
  else { p with flip_three_count := c1 }

/-- Step (g) of `deal_card_to_player`: decrement the Flip Three counter on
the player object when the effect was active before this card, cards are
still owed, and the dealt card is not an Action card. -/
def dealFlipStep (e5 : Engine) (player_id : String) (card_from_deck : Card)
    (flip_three_was_active : Bool) : Engine :=
  let countPos :=
    ((getPlayerAnywhere e5.game_state player_id).map
      (fun p => decide (p.flip_three_count > 0))).getD false
  if flip_three_was_active && countPos then
    if !card_from_deck.isAction then
      { e5 with game_state := updatePlayerObject e5.game_state player_id flipDecrement }
    else e5
  else e5

/-- Steps (f) and (g) of `deal_card_to_player`: bust handling (which may end
the round) followed by the Flip Three counter update on the player object. -/
def dealFinish (e4 : Engine) (player_id : String) (card_from_deck : Card)
    (flip_three_was_active : Bool) : Except String Engine :=
  let busted :=
    ((getPlayerAnywhere e4.game_state player_id).map (·.is_busted)).getD false
  let step5 : Except String Engine :=
    if busted then handle_player_bust e4 player_id else .ok e4
  match step5 with
  | .error msg => .error msg
  | .ok e5 => .ok (dealFlipStep e5 player_id card_from_deck flip_three_was_active)

/-- `GameEngine.deal_card_to_player`. -/
def deal_card_to_player (shuffle : List Card → List Card) (e : Engine)
    (player_id : String) (card : Card) : Except String Engine :=
  match e.game_state.current_round with
  | none => .error "No active round"
  | some current_round =>
    match lookupPS current_round.player_states player_id with
    | none => .error ("Player " ++ player_id ++ " not in game")
    | some player_state =>
      let validation := validate_player_can_hit player_state current_round
      if !validation.is_valid then
        .error (validation.error_message.getD "")
      else
        let rm := remove_card_from_deck e.game_state.deck card
        let card_from_deck := rm.1.getD card
        let flip_three_was_active := player_state.flip_three_active
        -- (a) append to hand, (b) mirror the deck count
        let r1 := current_round.updatePlayer player_id
          (fun p => { p with cards_in_hand := p.cards_in_hand ++ [card_from_deck] })
        let r2 := { r1 with cards_remaining_in_deck := (rm.2.length : Int) }
        let e1 : Engine :=
          { game_state := { e.game_state with deck := rm.2, current_round := some r2 }
            events := e.events }
        -- (c) transparent mid-deal reshuffle
        let e2 := maybeReshuffle shuffle e1
        match e2.game_state.current_round with
        | none => .ok e2
        | some _ =>
          -- (d) recompute bust / score
          let e3 : Engine := { e2 with game_state := update_player_score e2.game_state player_id }
          match findPlayerName e3.game_state player_id with
          | .error msg => .error msg
          | .ok _ =>
            -- (e) log the deal, then (f) bust handling and (g) Flip Three counter
            dealFinish (logEvent e3 (Event.cardDealt player_id card))
              player_id card_from_deck flip_three_was_active

/-- The Freeze banking update of `_apply_action_card` on the target player:
mark stayed and bank the hand's score. -/
def freezeAdjust (p : PlayerState) : PlayerState :=
  let sb := calculate_score p.cards_in_hand
  { p with has_stayed := true, round_score := sb.final_score,
           total_score := p.total_score + sb.final_score }

/-- `GameEngine._apply_action_card` (the `action_type` of the card is the
only part of it the method reads). -/
def apply_action_card (e : Engine) (target_player_id : String)
    (action_type : ActionType) (original_player_id : Option String) :
    Except String Engine :=
  match e.game_state.current_round with
  | none => .error "No active round"
  | some r =>
    match lookupPS r.player_states target_player_id with
    | none => .error "KeyError"
    | some target_state =>
      match findPlayerName e.game_state target_player_id with
      | .error msg => .error msg
      | .ok _ =>
      match (match original_player_id with
             | some o =>
               if o != target_player_id then
                 (findPlayerName e.game_state o).map (fun _ => ())
               else .ok ()
             | none => .ok ()) with
      | .error msg => .error msg
      | .ok _ =>
      match action_type with
      | ActionType.freeze =>
        let r1 := r.updatePlayer target_player_id freezeAdjust
        let e1 : Engine := { e with game_state := { e.game_state with current_round := some r1 } }
        let e2 := logEvent e1 (Event.actionCardApplied target_player_id ActionType.freeze)
        if check_round_end_condition r1 then end_round e2 else .ok e2
      | ActionType.flip_three =>
        let r1 := r.updatePlayer target_player_id (fun p =>
          { p with flip_three_active := true, flip_three_count := 3 })
        let e1 : Engine := { e with game_state := { e.game_state with current_round := some r1 } }
        .ok (logEvent e1 (Event.actionCardApplied target_player_id ActionType.flip_three))
      | ActionType.second_chance =>
        if target_state.has_second_chance then .ok e
        else
          let r1 := r.updatePlayer target_player_id (fun p => { p with has_second_chance := true })
          let moved : Except String RoundState :=
            match original_player_id with
            | some o =>
              if o != target_player_id then
                match lookupPS r1.player_states o with
                | none => .error "KeyError"
                | some original_state =>
                  match original_state.cards_in_hand.find? Card.isSecondChance with
                  | none => .ok r1
                  | some sc =>
                    let r2 := r1.updatePlayer o (fun p =>
                      { p with cards_in_hand := p.cards_in_hand.erase sc })
                    .ok (r2.updatePlayer target_player_id (fun p =>
                      { p with cards_in_hand := p.cards_in_hand ++ [sc] }))
              else .ok r1
            | none => .ok r1
          match moved with
          | .error msg => .error msg
          | .ok r2 =>
            let e1 : Engine := { e with game_state := { e.game_state with current_round := some r2 } }
            .ok (logEvent e1 (Event.actionCardApplied target_player_id ActionType.second_chance))
      | ActionType.score_modifier => .ok e

/-- `GameEngine.apply_action_card_effect`. Python's truthiness test on
`original_player_id` is modelled as presence of the optional value. -/
def apply_action_card_effect (e : Engine) (action_type : ActionType)
    (target_player_id : String) (original_player_id : Option String) :
    Except String Engine :=
  match e.game_state.current_round with
  | none => .error "No active round"
  | some r =>
    match lookupPS r.player_states target_player_id with
    | none => .error ("Player " ++ target_player_id ++ " not in game")
    | some target_state =>
      if target_state.has_stayed
          && (action_type == ActionType.freeze || action_type == ActionType.flip_three) then
        .error ("Cannot apply " ++ action_type.value ++ " to " ++ target_player_id
          ++ " - player has already stayed")
      else
        if action_type == ActionType.second_chance
            && (match original_player_id with
                | some o => o == target_player_id
                | none => false)
            && target_state.has_second_chance then
          .error ("Player " ++ target_player_id ++ " already has a Second Chance card. "
            ++ "Second one must be given to an opponent.")
        else
          apply_action_card e target_player_id action_type original_player_id

/-- `GameEngine.player_hit`: advisory-only logging. -/
def player_hit (e : Engine) (player_id : String) : Except String Engine :=
  match e.game_state.current_round with
  | none => .error "No active round"
  | some r =>
    match lookupPS r.player_states player_id with
    | none => .error "KeyError"
    | some ps =>
      let v := validate_player_can_hit ps r
      if !v.is_valid then .error (v.error_message.getD "")
      else
        match findPlayerName e.game_state player_id with
        | .error msg => .error msg
        | .ok _ => .ok (logEvent e (Event.playerHit player_id))

/-- `GameEngine.player_stay`. -/
def player_stay (e : Engine) (player_id : String) : Except String Engine :=
  match e.game_state.current_round with
  | none => .error "No active round"
  | some current_round =>
    match lookupPS current_round.player_states player_id with
    | none => .error "KeyError"
    | some player_state =>
      let validation := validate_player_can_stay player_state current_round
      if !validation.is_valid then .error (validation.error_message.getD "")
      else
        let sb := calculate_score player_state.cards_in_hand
        let r1 := current_round.updatePlayer player_id (fun p =>
          { p with has_stayed := true, round_score := sb.final_score,
                   total_score := p.total_score + sb.final_score })
        let e1 : Engine :=
          { e with game_state := { e.game_state with current_round := some r1 } }
        match findPlayerName e1.game_state player_id with
        | .error msg => .error msg
        | .ok _ =>
          let e2 := logEvent e1 (Event.playerStayed player_id sb.final_score
            (player_state.total_score + sb.final_score))
          if check_round_end_condition r1 then end_round e2 else .ok e2

/-- `GameEngine.use_second_chance`. Python mutates the hand with two
`remove` calls (first equal element); the `next(...)` search for the held
Second Chance card runs on the hand after the duplicate was removed. -/
def use_second_chance (e : Engine) (player_id : String) (card_to_discard : Card) :
    Except String Engine :=
  match e.game_state.current_round with
  | none => .error "No active round"
  | some r =>
    match lookupPS r.player_states player_id with
    | none => .error "KeyError"
    | some ps =>
      let v := validate_second_chance_usage ps card_to_discard
      if !v.is_valid then .error (v.error_message.getD "")
      else
        let hand1 := ps.cards_in_hand.erase card_to_discard
        match hand1.find? Card.isSecondChance with
        | none => .error "StopIteration"
        | some sc =>
          let hand2 := hand1.erase sc
          let r1 := r.updatePlayer player_id (fun p =>
            { p with cards_in_hand := hand2, has_second_chance := false })
          let gs1 := update_player_score { e.game_state with current_round := some r1 } player_id
          match findPlayerName gs1 player_id with
          | .error msg => .error msg
          | .ok _ =>
            .ok (logEvent { game_state := gs1, events := e.events }
              (Event.secondChanceUsed player_id))

-- ===========================================================================
-- Verification helpers and concrete fixtures
-- ===========================================================================

/-- The cards a game state currently has in play: the persistent deck, the
discard pile, and the hands of the active round. (Archived rounds keep
bookkeeping copies of their hands, whose cards have already moved to the
discard pile.) -/
def liveCards (gs : GameState) : Multiset Card :=
  (gs.deck : Multiset Card) + (gs.discard_pile : Multiset Card) +
    (match gs.current_round with
     | some r => (flattenHands r.player_states : Multiset Card)
     | none => 0)

/-- Identity shuffle: one legal outcome of `random.shuffle`. -/
def idShuffle : List Card → List Card := fun l => l

/-- Deterministic stand-ins for the `uuid4` player ids. -/
def demoIds : Nat → String := fun n => "P" ++ toString n

/-- Fallback player used to unwrap optional lookups in closed statements. -/
def noPlayer : PlayerState := { player_id := "", name := "" }

/-- Player lookup with fallback, for closed statements. -/
def getPlayerD (gs : GameState) (pid : String) : PlayerState :=
  (getPlayerAnywhere gs pid).getD noPlayer

/-- Run one engine step, keeping the previous state on error (every fixture
step below in fact succeeds, as the closed theorems prove). -/
def runStep (f : Engine → Except String Engine) (e : Engine) : Engine :=
  (f e).toOption.getD e

/-- An engine with an empty game state. -/
def emptyEngine : Engine := { game_state := {}, events := [] }

/-- Two-player game right after `start_new_game` (no active round yet). -/
def startOnly : Engine :=
  (start_new_game idShuffle demoIds ["Alice", "Bob"]).toOption.getD emptyEngine

/-- Two-player game with round 1 active and the full 94-card deck. -/
def demoEngine : Engine := runStep start_new_round startOnly

/-- `demoEngine` after dealing a 5 to player P0. -/
def d5a : Engine :=
  runStep (fun e => deal_card_to_player idShuffle e "P0" (Card.number 900 5)) demoEngine

/-- `d5a` after dealing a second 5 to P0: P0 busts, P1 is still active. -/
def d5b : Engine :=
  runStep (fun e => deal_card_to_player idShuffle e "P0" (Card.number 901 5)) d5a

/-- `d5b` after a Freeze effect is applied to the busted player P0. -/
def frz0 : Engine :=
  runStep (fun e => apply_action_card_effect e ActionType.freeze "P0" none) d5b

/-- `d5b` after a Freeze effect on P1, the only player neither stayed nor
busted (ends the round while P0 is busted). -/
def frz1 : Engine :=
  runStep (fun e => apply_action_card_effect e ActionType.freeze "P1" none) d5b

/-- `demoEngine` after dealing a Second Chance card to P0 (the effect is not
yet applied; the card dealt from the deck is `Card.action 85 second_chance`). -/
def dsc : Engine :=
  runStep (fun e => deal_card_to_player idShuffle e "P0"
    (Card.action 902 ActionType.second_chance)) demoEngine

/-- `demoEngine` after dealing a number card of value 13, which matches no
card in the deck and is therefore injected as provided. -/
def dinj : Engine :=
  runStep (fun e => deal_card_to_player idShuffle e "P0" (Card.number 903 13)) demoEngine

/-- `demoEngine` after dealing a Flip Three card to P0. -/
def f3a : Engine :=
  runStep (fun e => deal_card_to_player idShuffle e "P0"
    (Card.action 904 ActionType.flip_three)) demoEngine

/-- `f3a` after applying the Flip Three effect to P0 (count 3, active). -/
def f3b : Engine :=
  runStep (fun e => apply_action_card_effect e ActionType.flip_three "P0" none) f3a

/-- `f3b` after dealing an Action card (Freeze, unapplied) to P0. -/
def f3c : Engine :=
  runStep (fun e => deal_card_to_player idShuffle e "P0"
    (Card.action 905 ActionType.freeze)) f3b

/-- `f3c` after dealing the first non-Action card. -/
def f3d : Engine :=
  runStep (fun e => deal_card_to_player idShuffle e "P0" (Card.number 906 1)) f3c

/-- `f3d` after dealing the second non-Action card. -/
def f3e : Engine :=
  runStep (fun e => deal_card_to_player idShuffle e "P0" (Card.number 907 2)) f3d

/-- `f3e` after dealing the third non-Action card. -/
def f3f : Engine :=
  runStep (fun e => deal_card_to_player idShuffle e "P0" (Card.number 908 3)) f3e

/-- A hand worth `(63 + 30) * 2 + 15 = 201` points: seven distinct number
cards and all six modifiers. -/
def winCards : List Card :=
  [Card.number 910 12, Card.number 911 11, Card.number 912 10, Card.number 913 9,
   Card.number 914 8, Card.number 915 7, Card.number 916 6,
   Card.modifier 917 ModifierType.plus_2 2, Card.modifier 918 ModifierType.plus_4 4,
   Card.modifier 919 ModifierType.plus_6 6, Card.modifier 920 ModifierType.plus_8 8,
   Card.modifier 921 ModifierType.plus_10 10, Card.modifier 922 ModifierType.multiply_2 2]

/-- `demoEngine` after dealing the whole winning hand to P0. -/
def bigHand : Engine :=
  winCards.foldl
    (fun acc c => runStep (fun e => deal_card_to_player idShuffle e "P0" c) acc)
    demoEngine

/-- `bigHand` after `end_round`: P0 totals 201 and the game completes. -/
def wonEngine : Engine := runStep end_round bigHand

/-- `demoEngine` after P1 stays (P0 remains the only unresolved player). -/
def stayP1 : Engine := runStep (fun e => player_stay e "P1") demoEngine

/-- `stayP1` after a Freeze effect on P0: the round ends inside the call. -/
def frzLast : Engine :=
  runStep (fun e => apply_action_card_effect e ActionType.freeze "P0" none) stayP1

/-- `dsc` after the Second Chance effect is applied to P0 (flag set). -/
def scApplied : Engine :=
  runStep (fun e => apply_action_card_effect e ActionType.second_chance "P0" none) dsc

/-- `scApplied` after P0 draws the deck's first 5 (`Card.number 63 5`). -/
def scD1 : Engine :=
  runStep (fun e => deal_card_to_player idShuffle e "P0" (Card.number 923 5)) scApplied

/-- `scD1` after P0 draws the deck's second 5 — a duplicate, survived thanks
to the held Second Chance. -/
def scD2 : Engine :=
  runStep (fun e => deal_card_to_player idShuffle e "P0" (Card.number 924 5)) scD1

/-- `scD2` after P0 uses the Second Chance to discard the duplicate 5. -/
def scUsed : Engine :=
  runStep (fun e => use_second_chance e "P0" (Card.number 63 5)) scD2

/-- `player_hit` on `demoEngine` (logging only). -/
def hitEngine : Engine := runStep (fun e => player_hit e "P0") demoEngine

/-- A player who has already stayed, for closed witnesses. -/
def stayedPS : PlayerState := { player_id := "P0", name := "Alice", has_stayed := true }

/-- A bare round, for closed witnesses. -/
def emptyRound : RoundState := { round_number := 1, dealer_id := "P0" }

/-- Whether an `Except` value is a success, for decidable hypotheses. -/
def isOkE {α β : Type} : Except α β → Bool
  | .ok _ => true
  | .error _ => false

/-- The current round of a fixture engine, for closed witnesses. -/
def roundOfD (e : Engine) : RoundState := (e.game_state.current_round).getD emptyRound

/-- The current-round state of one player of a fixture engine. -/
def psOfD (e : Engine) (pid : String) : PlayerState :=
  (lookupPS (roundOfD e).player_states pid).getD noPlayer

-- ===========================================================================
-- Helper lemmas
-- ===========================================================================

theorem bonus_foldl_eq_sum (l : List Card) (a : Int) :
    l.foldl (fun acc c => if c.isMultiply2 then acc else acc + c.value) a
      = a + ((l.filter (fun c => !c.isMultiply2)).map Card.value).sum := by
  induction l generalizing a with
  | nil => simp
  | cons c t ih =>
    by_cases hc : c.isMultiply2 = true
    · simp [hc, ih]
    · simp only [Bool.not_eq_true] at hc
      simp [hc, ih, add_assoc]

theorem filter_mult_of_not_modifier (cards : List Card) :
    (cards.filter Card.isModifier).filter (fun c => !c.isMultiply2)
      = cards.filter (fun c => c.isModifier && !c.isMultiply2) := by
  rw [List.filter_filter]
  apply List.filter_congr
  intro c _
  exact Bool.and_comm _ _

theorem any_mult_filter (cards : List Card) :
    (cards.filter Card.isModifier).any Card.isMultiply2 = cards.any Card.isMultiply2 := by
  induction cards with
  | nil => rfl
  | cons c t ih =>
    cases c <;> simp [List.filter, Card.isModifier, Card.isMultiply2, ih]

theorem lookupPS_updatePS_self (m : List (String × PlayerState)) (pid : String)
    (f : PlayerState → PlayerState) :
    lookupPS (updatePS m pid f) pid = (lookupPS m pid).map f := by
  induction m with
  | nil => rfl
  | cons kv rest ih =>
    unfold updatePS
    by_cases h : kv.1 == pid
    · simp [lookupPS, h]
    · simp only [Bool.not_eq_true] at h
      simp [lookupPS, h, ih]

theorem lookupPS_updatePS_ne (m : List (String × PlayerState)) (pid q : String)
    (f : PlayerState → PlayerState) (hne : q ≠ pid) :
    lookupPS (updatePS m pid f) q = lookupPS m q := by
  induction m with
  | nil => rfl
  | cons kv rest ih =>
    unfold updatePS
    by_cases h : kv.1 == pid
    · have hk : kv.1 = pid := by simpa [beq_iff_eq] using h
      have hpq : (pid == q) = false := by
        simp only [beq_eq_false_iff_ne, ne_eq]
        exact fun hc => hne hc.symm
      simp [lookupPS, h, hk, hpq]
    · simp only [Bool.not_eq_true] at h
      simp [lookupPS, h, ih]

theorem keys_updatePS (m : List (String × PlayerState)) (pid : String)
    (f : PlayerState → PlayerState) :
    (updatePS m pid f).map Prod.fst = m.map Prod.fst := by
  induction m with
  | nil => rfl
  | cons kv rest ih =>
    unfold updatePS
    split <;> simp [ih]

theorem lookupPS_mem (m : List (String × PlayerState)) (pid : String) (ps : PlayerState)
    (h : lookupPS m pid = some ps) : (pid, ps) ∈ m := by
  induction m with
  | nil => simp [lookupPS] at h
  | cons kv rest ih =>
    rw [List.mem_cons]
    by_cases hk : kv.1 == pid
    · have hk' : kv.1 = pid := by simpa [beq_iff_eq] using hk
      simp [lookupPS, hk] at h
      left
      rw [Prod.ext_iff]
      exact ⟨hk'.symm, h.symm⟩
    · simp [lookupPS, hk] at h
      right
      exact ih h

theorem endAdjustPS_preserves (kv : String × PlayerState) :
    (endAdjustPS kv).1 = kv.1
    ∧ (endAdjustPS kv).2.cards_in_hand = kv.2.cards_in_hand
    ∧ (endAdjustPS kv).2.is_busted = kv.2.is_busted
    ∧ (endAdjustPS kv).2.has_stayed = kv.2.has_stayed
    ∧ (endAdjustPS kv).2.has_second_chance = kv.2.has_second_chance
    ∧ (endAdjustPS kv).2.flip_three_active = kv.2.flip_three_active
    ∧ (endAdjustPS kv).2.flip_three_count = kv.2.flip_three_count := by
  unfold endAdjustPS
  split <;> simp

theorem endAdjustPS_of_resolved (kv : String × PlayerState)
    (h : kv.2.has_stayed = true ∨ kv.2.is_busted = true) : endAdjustPS kv = kv := by
  unfold endAdjustPS
  rcases h with h | h <;> simp [h]

theorem lookupPS_map_endAdjust (m : List (String × PlayerState)) (pid : String) :
    lookupPS (m.map endAdjustPS) pid
      = (lookupPS m pid).map (fun ps => (endAdjustPS (pid, ps)).2) := by
  induction m with
  | nil => rfl
  | cons kv rest ih =>
    have hkey := (endAdjustPS_preserves kv).1
    by_cases hk : kv.1 == pid
    · have hk' : kv.1 = pid := by simpa [beq_iff_eq] using hk
      have hsame : endAdjustPS (pid, kv.2) = endAdjustPS kv := by rw [← hk']
      simp [lookupPS, hkey, hk, hsame]
    · simp [lookupPS, hkey, hk, ih]

theorem completeRound_states (r : RoundState) :
    (completeRound r).player_states = r.player_states.map endAdjustPS := rfl

theorem completeRound_number (r : RoundState) :
    (completeRound r).round_number = r.round_number := rfl

theorem completeRound_complete (r : RoundState) :
    (completeRound r).is_complete = true := rfl

theorem completeRound_reason (r : RoundState) :
    (completeRound r).end_reason = determine_round_end_reason r := rfl

theorem completeRound_deckcount (r : RoundState) :
    (completeRound r).cards_remaining_in_deck = r.cards_remaining_in_deck := rfl

theorem check_game_end_spec (e e' : Engine) (h : check_game_end e = .ok e') :
    e'.game_state.current_round = e.game_state.current_round
    ∧ e'.game_state.round_history = e.game_state.round_history
    ∧ e'.game_state.deck = e.game_state.deck
    ∧ e'.game_state.discard_pile = e.game_state.discard_pile
    ∧ e'.game_state.players = e.game_state.players
    ∧ (match e.game_state.round_history.getLast? with
       | none => e' = e
       | some last =>
         match check_win_condition last.player_states with
         | none => e' = e
         | some w =>
           e'.game_state.is_complete = true ∧ e'.game_state.winner_id = some w
           ∧ e'.events = e.events ++ [Event.gameEnded w]) := by
  unfold check_game_end at h
  split at h
  · injection h with h
    subst h
    simp
  · split at h
    · injection h with h
      subst h
      simp
    · split at h
      · cases h
      · injection h with h
        subst h
        simp [logEvent]

theorem end_round_spec (e e' : Engine) (r : RoundState)
    (hr : e.game_state.current_round = some r) (h : end_round e = .ok e') :
    e'.game_state.current_round = none
    ∧ e'.game_state.round_history = e.game_state.round_history ++ [completeRound r]
    ∧ e'.game_state.deck = e.game_state.deck
    ∧ e'.game_state.players = e.game_state.players
    ∧ e'.game_state.discard_pile
        = e.game_state.discard_pile ++ flattenHands (completeRound r).player_states
    ∧ e'.game_state.is_complete
        = (e.game_state.is_complete
            || (check_win_condition (completeRound r).player_states).isSome)
    ∧ e'.game_state.winner_id
        = (match check_win_condition (completeRound r).player_states with
           | some w => some w
           | none => e.game_state.winner_id)
    ∧ e'.events
        = e.events ++ [Event.roundEnded r.round_number (completeRound r).end_reason]
          ++ (match check_win_condition (completeRound r).player_states with
              | some w => [Event.gameEnded w]
              | none => []) := by
  unfold end_round at h
  rw [hr] at h
  unfold check_game_end at h
  dsimp only [logEvent] at h
  rw [List.getLast?_concat] at h
  dsimp only at h
  split at h
  · rename_i hwin
    injection h with h
    subst h
    simp [hwin, completeRound_number]
  · rename_i w hwin
    split at h
    · cases h
    · injection h with h
      subst h
      simp [hwin, logEvent, completeRound_number]

theorem updateLast_append {α : Type} (f : α → α) (l : List α) (a : α) :
    updateLast f (l ++ [a]) = l ++ [f a] := by
  induction l with
  | nil => rfl
  | cons b t ih =>
    cases t with
    | nil => rfl
    | cons c t' => simpa [updateLast] using ih

theorem updatePlayerObject_some (gs : GameState) (pid : String)
    (f : PlayerState → PlayerState) (r : RoundState) (hr : gs.current_round = some r) :
    updatePlayerObject gs pid f = { gs with current_round := some (r.updatePlayer pid f) } := by
  unfold updatePlayerObject
  rw [hr]

theorem updatePlayerObject_none_append (gs : GameState) (pid : String)
    (f : PlayerState → PlayerState) (hist : List RoundState) (r4 : RoundState)
    (hr : gs.current_round = none) (hh : gs.round_history = hist ++ [r4]) :
    updatePlayerObject gs pid f
      = { gs with round_history := hist ++ [r4.updatePlayer pid f] } := by
  unfold updatePlayerObject
  rw [hr, hh, updateLast_append]

theorem getPlayerAnywhere_some (gs : GameState) (r : RoundState)
    (hr : gs.current_round = some r) (pid : String) :
    getPlayerAnywhere gs pid = lookupPS r.player_states pid := by
  unfold getPlayerAnywhere
  rw [hr]

theorem getPlayerAnywhere_none (gs : GameState) (hist : List RoundState) (r4 : RoundState)
    (hr : gs.current_round = none) (hh : gs.round_history = hist ++ [r4]) (pid : String) :
    getPlayerAnywhere gs pid = lookupPS r4.player_states pid := by
  unfold getPlayerAnywhere
  rw [hr, hh, List.getLast?_concat]

theorem update_ps_preserves (ps : PlayerState) :
    (update_player_score_ps ps).cards_in_hand = ps.cards_in_hand
    ∧ (update_player_score_ps ps).has_second_chance = ps.has_second_chance
    ∧ (update_player_score_ps ps).has_stayed = ps.has_stayed
    ∧ (update_player_score_ps ps).flip_three_active = ps.flip_three_active
    ∧ (update_player_score_ps ps).flip_three_count = ps.flip_three_count
    ∧ (update_player_score_ps ps).total_score = ps.total_score
    ∧ (update_player_score_ps ps).player_id = ps.player_id := by
  unfold update_player_score_ps
  split <;> simp

theorem update_ps_busted (ps : PlayerState) (hb : ps.is_busted = false) :
    ((update_player_score_ps ps).is_busted = true
      ↔ (check_for_duplicate_cards ps.cards_in_hand = true ∧ ps.has_second_chance = false))
    ∧ ((update_player_score_ps ps).is_busted = true
        → (update_player_score_ps ps).round_score = 0) := by
  unfold update_player_score_ps
  by_cases h1 : check_for_duplicate_cards ps.cards_in_hand = true <;>
    by_cases h2 : ps.has_second_chance = true <;> simp_all

theorem flipDecrement_fields (p : PlayerState) :
    (flipDecrement p).flip_three_count = p.flip_three_count - 1
    ∧ (flipDecrement p).flip_three_active
        = (if p.flip_three_count - 1 == 0 then false else p.flip_three_active)
    ∧ (flipDecrement p).cards_in_hand = p.cards_in_hand
    ∧ (flipDecrement p).is_busted = p.is_busted
    ∧ (flipDecrement p).round_score = p.round_score
    ∧ (flipDecrement p).has_second_chance = p.has_second_chance
    ∧ (flipDecrement p).has_stayed = p.has_stayed
    ∧ (flipDecrement p).total_score = p.total_score := by
  unfold flipDecrement
  split <;> simp_all

theorem flattenHands_updatePS_congr (m : List (String × PlayerState)) (pid : String)
    (f : PlayerState → PlayerState) (hf : ∀ p, (f p).cards_in_hand = p.cards_in_hand) :
    flattenHands (updatePS m pid f) = flattenHands m := by
  induction m with
  | nil => rfl
  | cons kv rest ih =>
    unfold updatePS
    split <;> simp [flattenHands, hf, ih]
    · exact ih  -- fallback in case simp leaves the tail goal

theorem flattenHands_map_endAdjust (m : List (String × PlayerState)) :
    flattenHands (m.map endAdjustPS) = flattenHands m := by
  unfold flattenHands
  rw [List.map_map]
  congr 1
  apply List.map_congr_left
  intro kv _
  exact (endAdjustPS_preserves kv).2.1

theorem update_player_score_some (gs : GameState) (pid : String) (r : RoundState)
    (hr : gs.current_round = some r) :
    update_player_score gs pid
      = { gs with current_round := some (r.updatePlayer pid update_player_score_ps) } := by
  unfold update_player_score
  rw [hr]

theorem maybeReshuffle_spec (shuffle : List Card → List Card) (e1 : Engine) :
    (maybeReshuffle shuffle e1).game_state.players = e1.game_state.players
    ∧ (maybeReshuffle shuffle e1).game_state.round_history = e1.game_state.round_history
    ∧ (maybeReshuffle shuffle e1).game_state.is_complete = e1.game_state.is_complete
    ∧ (maybeReshuffle shuffle e1).game_state.winner_id = e1.game_state.winner_id
    ∧ (match e1.game_state.current_round with
       | none => (maybeReshuffle shuffle e1).game_state.current_round = none
       | some r => ∃ cnt, (maybeReshuffle shuffle e1).game_state.current_round
           = some { r with cards_remaining_in_deck := cnt })
    ∧ ((∀ l, (shuffle l).Perm l) →
        ((maybeReshuffle shuffle e1).game_state.deck : Multiset Card)
          + ((maybeReshuffle shuffle e1).game_state.discard_pile : Multiset Card)
          = (e1.game_state.deck : Multiset Card)
              + (e1.game_state.discard_pile : Multiset Card)) := by
  unfold maybeReshuffle
  split
  · rename_i hc
    rw [Bool.and_eq_true] at hc
    obtain ⟨h0, hpos⟩ := hc
    have hdeck : e1.game_state.deck = [] := by
      rwa [beq_iff_eq, List.length_eq_zero] at h0
    have hdp : ¬ (e1.game_state.discard_pile.length == 0) = true := by
      simp only [beq_iff_eq]
      have : 0 < e1.game_state.discard_pile.length := by simpa using hpos
      omega
    unfold reshuffle_deck
    rw [if_neg hdp]
    dsimp only [logEvent]
    split
    · rename_i r hr
      refine ⟨rfl, rfl, rfl, rfl, ?_, ?_⟩
      · rw [hr]
        exact ⟨_, rfl⟩
      · intro hperm
        rw [hdeck]
        have : (↑(shuffle e1.game_state.discard_pile) : Multiset Card)
            = (e1.game_state.discard_pile : Multiset Card) :=
          Multiset.coe_eq_coe.mpr (hperm _)
        simp [this]
    · rename_i hr
      refine ⟨rfl, rfl, rfl, rfl, ?_, ?_⟩
      · rw [hr]
      · intro hperm
        rw [hdeck]
        have : (↑(shuffle e1.game_state.discard_pile) : Multiset Card)
            = (e1.game_state.discard_pile : Multiset Card) :=
          Multiset.coe_eq_coe.mpr (hperm _)
        simp [this]
  · refine ⟨rfl, rfl, rfl, rfl, ?_, fun _ => rfl⟩
    cases hr : e1.game_state.current_round with
    | none => rfl
    | some r =>
      exact ⟨r.cards_remaining_in_deck, rfl⟩

theorem liveCards_some (gs : GameState) (r : RoundState) (hr : gs.current_round = some r) :
    liveCards gs = (gs.deck : Multiset Card) + (gs.discard_pile : Multiset Card)
      + (flattenHands r.player_states : Multiset Card) := by
  unfold liveCards
  rw [hr]

theorem liveCards_none (gs : GameState) (hr : gs.current_round = none) :
    liveCards gs
      = (gs.deck : Multiset Card) + (gs.discard_pile : Multiset Card) + 0 := by
  unfold liveCards
  rw [hr]

theorem dealFlipStep_spec_some (e5 : Engine) (pid : String) (cfd : Card) (fwa : Bool)
    (r5 : RoundState) (hr5 : e5.game_state.current_round = some r5)
    (u : PlayerState) (hu5 : lookupPS r5.player_states pid = some u) :
    ∃ psF, getPlayerAnywhere (dealFlipStep e5 pid cfd fwa).game_state pid = some psF
      ∧ psF.cards_in_hand = u.cards_in_hand
      ∧ psF.is_busted = u.is_busted
      ∧ psF.has_second_chance = u.has_second_chance
      ∧ psF.round_score = u.round_score
      ∧ psF.has_stayed = u.has_stayed
      ∧ ((fwa = true ∧ 0 < u.flip_three_count ∧ cfd.isAction = false) →
          psF.flip_three_count = u.flip_three_count - 1
          ∧ psF.flip_three_active
              = (if u.flip_three_count - 1 == 0 then false else u.flip_three_active))
      ∧ (¬ (fwa = true ∧ 0 < u.flip_three_count ∧ cfd.isAction = false) →
          psF.flip_three_count = u.flip_three_count
          ∧ psF.flip_three_active = u.flip_three_active)
      ∧ liveCards (dealFlipStep e5 pid cfd fwa).game_state = liveCards e5.game_state
      ∧ (dealFlipStep e5 pid cfd fwa).game_state.round_history
          = e5.game_state.round_history
      ∧ (dealFlipStep e5 pid cfd fwa).game_state.is_complete
          = e5.game_state.is_complete := by
  unfold dealFlipStep
  rw [getPlayerAnywhere_some _ r5 hr5, hu5]
  dsimp only [Option.map, Option.getD]
  by_cases hdec : fwa = true ∧ 0 < u.flip_three_count ∧ cfd.isAction = false
  · obtain ⟨hf, hcnt, hact⟩ := hdec
    rw [if_pos (show (fwa && decide (u.flip_three_count > 0)) = true by
          simp [hf, hcnt, gt_iff_lt]),
        if_pos (show (!cfd.isAction) = true by simp [hact])]
    have hup := updatePlayerObject_some e5.game_state pid flipDecrement r5 hr5
    rw [hup]
    have hget : getPlayerAnywhere
        { e5.game_state with current_round := some (r5.updatePlayer pid flipDecrement) } pid
        = some (flipDecrement u) := by
      rw [getPlayerAnywhere_some
        { e5.game_state with current_round := some (r5.updatePlayer pid flipDecrement) }
        (r5.updatePlayer pid flipDecrement) rfl]
      unfold RoundState.updatePlayer
      rw [lookupPS_updatePS_self, hu5]
      rfl
    obtain ⟨f1, f2, f3, f4, f5, f6, f7, _⟩ := flipDecrement_fields u
    refine ⟨flipDecrement u, hget, f3, f4, f6, f5, f7,
      fun _ => ⟨f1, f2⟩, fun hcon => absurd ⟨hf, hcnt, hact⟩ hcon, ?_, rfl, rfl⟩
    rw [liveCards_some _ (r5.updatePlayer pid flipDecrement) rfl,
      liveCards_some e5.game_state r5 hr5]
    unfold RoundState.updatePlayer
    rw [flattenHands_updatePS_congr _ _ _ (fun p => (flipDecrement_fields p).2.2.1)]
  · have hres : ∀ g : Prop, g → g := fun _ hg => hg
    by_cases hf : fwa = true
    · by_cases hcnt : 0 < u.flip_three_count
      · have hact : cfd.isAction = true := by
          by_contra hc
          have : cfd.isAction = false := by
            cases hca : cfd.isAction
            · rfl
            · exact absurd hca hc
          exact hdec ⟨hf, hcnt, this⟩
        rw [if_pos (show (fwa && decide (u.flip_three_count > 0)) = true by
              simp [hf, hcnt, gt_iff_lt]),
            if_neg (show ¬ ((!cfd.isAction) = true) by simp [hact])]
        exact ⟨u, by rw [getPlayerAnywhere_some _ r5 hr5, hu5], rfl, rfl, rfl, rfl, rfl,
          fun hcon => absurd hcon hdec, fun _ => ⟨rfl, rfl⟩, rfl, rfl, rfl⟩
      · rw [if_neg (show ¬ ((fwa && decide (u.flip_three_count > 0)) = true) by
            simp [gt_iff_lt, hcnt])]
        exact ⟨u, by rw [getPlayerAnywhere_some _ r5 hr5, hu5], rfl, rfl, rfl, rfl, rfl,
          fun hcon => absurd hcon hdec, fun _ => ⟨rfl, rfl⟩, rfl, rfl, rfl⟩
    · have hf' : fwa = false := by
        cases hfc : fwa
        · rfl
        · exact absurd hfc hf
      rw [if_neg (show ¬ ((fwa && decide (u.flip_three_count > 0)) = true) by simp [hf'])]
      exact ⟨u, by rw [getPlayerAnywhere_some _ r5 hr5, hu5], rfl, rfl, rfl, rfl, rfl,
        fun hcon => absurd hcon hdec, fun _ => ⟨rfl, rfl⟩, rfl, rfl, rfl⟩

theorem dealFlipStep_spec_none (e5 : Engine) (pid : String) (cfd : Card) (fwa : Bool)
    (hist : List RoundState) (r5 : RoundState)
    (hr5 : e5.game_state.current_round = none)
    (hh : e5.game_state.round_history = hist ++ [r5])
    (u : PlayerState) (hu5 : lookupPS r5.player_states pid = some u) :
    ∃ psF, getPlayerAnywhere (dealFlipStep e5 pid cfd fwa).game_state pid = some psF
      ∧ psF.cards_in_hand = u.cards_in_hand
      ∧ psF.is_busted = u.is_busted
      ∧ psF.has_second_chance = u.has_second_chance
      ∧ psF.round_score = u.round_score
      ∧ psF.has_stayed = u.has_stayed
      ∧ ((fwa = true ∧ 0 < u.flip_three_count ∧ cfd.isAction = false) →
          psF.flip_three_count = u.flip_three_count - 1
          ∧ psF.flip_three_active
              = (if u.flip_three_count - 1 == 0 then false else u.flip_three_active))
      ∧ (¬ (fwa = true ∧ 0 < u.flip_three_count ∧ cfd.isAction = false) →
          psF.flip_three_count = u.flip_three_count
          ∧ psF.flip_three_active = u.flip_three_active)
      ∧ liveCards (dealFlipStep e5 pid cfd fwa).game_state = liveCards e5.game_state
      ∧ (dealFlipStep e5 pid cfd fwa).game_state.current_round = none
      ∧ (∃ rX, (dealFlipStep e5 pid cfd fwa).game_state.round_history = hist ++ [rX])
      ∧ (dealFlipStep e5 pid cfd fwa).game_state.is_complete
          = e5.game_state.is_complete := by
  unfold dealFlipStep
  rw [getPlayerAnywhere_none _ hist r5 hr5 hh, hu5]
  dsimp only [Option.map, Option.getD]
  by_cases hdec : fwa = true ∧ 0 < u.flip_three_count ∧ cfd.isAction = false
  · obtain ⟨hf, hcnt, hact⟩ := hdec
    rw [if_pos (show (fwa && decide (u.flip_three_count > 0)) = true by
          simp [hf, hcnt, gt_iff_lt]),
        if_pos (show (!cfd.isAction) = true by simp [hact])]
    have hup := updatePlayerObject_none_append e5.game_state pid flipDecrement hist r5 hr5 hh
    rw [hup]
    have hget : getPlayerAnywhere
        { e5.game_state with round_history := hist ++ [r5.updatePlayer pid flipDecrement] } pid
        = some (flipDecrement u) := by
      rw [getPlayerAnywhere_none
        { e5.game_state with round_history := hist ++ [r5.updatePlayer pid flipDecrement] }
        hist (r5.updatePlayer pid flipDecrement) hr5 rfl]
      unfold RoundState.updatePlayer
      rw [lookupPS_updatePS_self, hu5]
      rfl
    obtain ⟨f1, f2, f3, f4, f5, f6, f7, _⟩ := flipDecrement_fields u
    refine ⟨flipDecrement u, hget, f3, f4, f6, f5, f7,
      fun _ => ⟨f1, f2⟩, fun hcon => absurd ⟨hf, hcnt, hact⟩ hcon, ?_, hr5, ⟨_, rfl⟩, rfl⟩
    rw [liveCards_none _ hr5, liveCards_none _ (show ({ e5.game_state with
        round_history := hist ++ [r5.updatePlayer pid flipDecrement] } : GameState).current_round
        = none from hr5)]
  · have hbase : getPlayerAnywhere e5.game_state pid = some u := by
      rw [getPlayerAnywhere_none _ hist r5 hr5 hh, hu5]
    by_cases hf : fwa = true
    · by_cases hcnt : 0 < u.flip_three_count
      · have hact : cfd.isAction = true := by
          by_contra hc
          have : cfd.isAction = false := by
            cases hca : cfd.isAction
            · rfl
            · exact absurd hca hc
          exact hdec ⟨hf, hcnt, this⟩
        rw [if_pos (show (fwa && decide (u.flip_three_count > 0)) = true by
              simp [hf, hcnt, gt_iff_lt]),
            if_neg (show ¬ ((!cfd.isAction) = true) by simp [hact])]
        exact ⟨u, hbase, rfl, rfl, rfl, rfl, rfl,
          fun hcon => absurd hcon hdec, fun _ => ⟨rfl, rfl⟩, rfl, hr5, ⟨_, hh⟩, rfl⟩
      · rw [if_neg (show ¬ ((fwa && decide (u.flip_three_count > 0)) = true) by
            simp [gt_iff_lt, hcnt])]
        exact ⟨u, hbase, rfl, rfl, rfl, rfl, rfl,
          fun hcon => absurd hcon hdec, fun _ => ⟨rfl, rfl⟩, rfl, hr5, ⟨_, hh⟩, rfl⟩
    · have hf' : fwa = false := by
        cases hfc : fwa
        · rfl
        · exact absurd hfc hf
      rw [if_neg (show ¬ ((fwa && decide (u.flip_three_count > 0)) = true) by simp [hf'])]
      exact ⟨u, hbase, rfl, rfl, rfl, rfl, rfl,
        fun hcon => absurd hcon hdec, fun _ => ⟨rfl, rfl⟩, rfl, hr5, ⟨_, hh⟩, rfl⟩

theorem dealFinish_spec (e4 e' : Engine) (pid : String) (cfd : Card) (fwa : Bool)
    (r4 : RoundState) (hr : e4.game_state.current_round = some r4)
    (u : PlayerState) (hu : lookupPS r4.player_states pid = some u)
    (h : dealFinish e4 pid cfd fwa = .ok e') :
    ∃ psF, getPlayerAnywhere e'.game_state pid = some psF
      ∧ psF.cards_in_hand = u.cards_in_hand
      ∧ psF.is_busted = u.is_busted
      ∧ psF.has_second_chance = u.has_second_chance
      ∧ psF.round_score = u.round_score
      ∧ psF.has_stayed = u.has_stayed
      ∧ ((fwa = true ∧ 0 < u.flip_three_count ∧ cfd.isAction = false) →
          psF.flip_three_count = u.flip_three_count - 1
          ∧ psF.flip_three_active
              = (if u.flip_three_count - 1 == 0 then false else u.flip_three_active))
      ∧ (¬ (fwa = true ∧ 0 < u.flip_three_count ∧ cfd.isAction = false) →
          psF.flip_three_count = u.flip_three_count
          ∧ psF.flip_three_active = u.flip_three_active)
      ∧ liveCards e'.game_state = liveCards e4.game_state
      ∧ ((e'.game_state.round_history = e4.game_state.round_history
            ∧ e'.game_state.is_complete = e4.game_state.is_complete)
         ∨ (u.is_busted = true
            ∧ e'.game_state.current_round = none
            ∧ (∃ rX, e'.game_state.round_history = e4.game_state.round_history ++ [rX])
            ∧ e'.game_state.is_complete
                = (e4.game_state.is_complete
                    || (check_win_condition ((completeRound r4).player_states)).isSome))) := by
  unfold dealFinish at h
  rw [getPlayerAnywhere_some e4.game_state r4 hr pid, hu] at h
  dsimp only [Option.map, Option.getD] at h
  by_cases hb : u.is_busted = true
  · rw [if_pos hb] at h
    cases hh : handle_player_bust e4 pid with
    | error m =>
      rw [hh] at h
      cases h
    | ok e5 =>
      rw [hh] at h
      dsimp only at h
      injection h with h
      subst h
      unfold handle_player_bust at hh
      rw [hr] at hh
      dsimp only at hh
      split at hh
      · cases hh
      split at hh
      · -- the bust resolved the last player: the round ends inside the call
        obtain ⟨w1, w2, w3, w4, w5, w6, _, _⟩ :=
          end_round_spec (logEvent e4 (Event.playerBusted pid)) e5 r4 hr hh
        have hadj : (endAdjustPS (pid, u)).2 = u := by
          rw [endAdjustPS_of_resolved (pid, u) (Or.inr hb)]
        have hu5 : lookupPS (completeRound r4).player_states pid = some u := by
          rw [completeRound_states, lookupPS_map_endAdjust, hu]
          simp [hadj]
        obtain ⟨psF, g1, g2, g3, g4, g5, g6, g7, g8, g9, g10, g11, g12⟩ :=
          dealFlipStep_spec_none e5 pid cfd fwa e4.game_state.round_history
            (completeRound r4) w1 w2 u hu5
        refine ⟨psF, g1, g2, g3, g4, g5, g6, g7, g8, ?_, Or.inr ⟨hb, g10, g11, ?_⟩⟩
        · rw [g9, liveCards_none _ w1, liveCards_some e4.game_state r4 hr, w3, w5,
            completeRound_states, flattenHands_map_endAdjust, ← Multiset.coe_add]
          dsimp only [logEvent]
          rw [add_zero, add_assoc]
        · rw [g12, w6]
          rfl
      · -- bust logged but other players remain unresolved
        injection hh with hh
        subst hh
        obtain ⟨psF, g1, g2, g3, g4, g5, g6, g7, g8, g9, g10, g11⟩ :=
          dealFlipStep_spec_some (logEvent e4 (Event.playerBusted pid)) pid cfd fwa r4 hr u hu
        exact ⟨psF, g1, g2, g3, g4, g5, g6, g7, g8, g9, Or.inl ⟨g10, g11⟩⟩
  · have hb' : u.is_busted = false := by
      cases hc : u.is_busted
      · rfl
      · exact absurd hc hb
    rw [if_neg hb] at h
    dsimp only at h
    injection h with h
    subst h
    obtain ⟨psF, g1, g2, g3, g4, g5, g6, g7, g8, g9, g10, g11⟩ :=
      dealFlipStep_spec_some e4 pid cfd fwa r4 hr u hu
    exact ⟨psF, g1, g2, g3, g4, g5, g6, g7, g8, g9, Or.inl ⟨g10, g11⟩⟩

theorem cards_match_action (a b : Card) (h : cards_match a b = true) :
    b.isAction = a.isAction := by
  cases a <;> cases b <;> simp_all [cards_match, Card.isAction]

theorem remove_card_some (deck : List Card) (card c : Card) (deck' : List Card)
    (h : remove_card_from_deck deck card = (some c, deck')) :
    (deck : Multiset Card) = c ::ₘ (deck' : Multiset Card)
    ∧ cards_match card c = true := by
  induction deck generalizing deck' with
  | nil => simp [remove_card_from_deck] at h
  | cons d rest ih =>
    unfold remove_card_from_deck at h
    split at h
    · rename_i hm
      injection h with h1 h2
      injection h1 with h1
      subst h1 h2
      exact ⟨rfl, hm⟩
    · rename_i hm
      have h1 : (remove_card_from_deck rest card).1 = some c := by
        have := congrArg Prod.fst h
        simpa using this
      have h2 : deck' = d :: (remove_card_from_deck rest card).2 := by
        have := congrArg Prod.snd h
        simpa using this.symm
      obtain ⟨ih1, ih2⟩ := ih (remove_card_from_deck rest card).2
        (by rw [← h1])
      refine ⟨?_, ih2⟩
      subst h2
      rw [show ((d :: rest : List Card) : Multiset Card)
          = d ::ₘ (rest : Multiset Card) from rfl, ih1]
      rw [show ((d :: (remove_card_from_deck rest card).2 : List Card) : Multiset Card)
          = d ::ₘ ((remove_card_from_deck rest card).2 : Multiset Card) from rfl]
      rw [Multiset.cons_swap]

theorem remove_card_none (deck : List Card) (card : Card) (deck' : List Card)
    (h : remove_card_from_deck deck card = (none, deck')) :
    deck' = deck := by
  induction deck generalizing deck' with
  | nil =>
    unfold remove_card_from_deck at h
    injection h with _ h2
    exact h2.symm
  | cons d rest ih =>
    unfold remove_card_from_deck at h
    split at h
    · cases h
    · have h1 : (remove_card_from_deck rest card).1 = none := by
        have := congrArg Prod.fst h
        simpa using this
      have h2 : deck' = d :: (remove_card_from_deck rest card).2 := by
        have := congrArg Prod.snd h
        simpa using this.symm
      rw [h2, ih (remove_card_from_deck rest card).2 (by rw [← h1])]

theorem flattenHands_append_multiset (m : List (String × PlayerState)) (pid : String)
    (x : Card) (h : (lookupPS m pid).isSome) :
    (flattenHands (updatePS m pid
        (fun p => { p with cards_in_hand := p.cards_in_hand ++ [x] })) : Multiset Card)
      = x ::ₘ (flattenHands m : Multiset Card) := by
  induction m with
  | nil => simp [lookupPS] at h
  | cons kv rest ih =>
    by_cases hk : kv.1 == pid
    · unfold updatePS
      rw [if_pos hk]
      show (((kv.2.cards_in_hand ++ [x]) ++ flattenHands rest : List Card) : Multiset Card)
          = x ::ₘ ((kv.2.cards_in_hand ++ flattenHands rest : List Card) : Multiset Card)
      rw [← Multiset.coe_add, ← Multiset.coe_add, ← Multiset.coe_add]
      rw [show (([x] : List Card) : Multiset Card) = {x} from rfl]
      rw [add_comm (kv.2.cards_in_hand : Multiset Card) {x}, add_assoc]
      rw [Multiset.singleton_add]
    · unfold updatePS
      rw [if_neg hk]
      have h' : (lookupPS rest pid).isSome := by
        unfold lookupPS at h
        rw [if_neg hk] at h
        exact h
      show ((kv.2.cards_in_hand ++ flattenHands (updatePS rest pid _) : List Card) : Multiset Card)
          = x ::ₘ ((kv.2.cards_in_hand ++ flattenHands rest : List Card) : Multiset Card)
      rw [← Multiset.coe_add, ← Multiset.coe_add, ih h']
      rw [Multiset.add_cons]

theorem can_hit_valid (ps : PlayerState) (r : RoundState)
    (h : (validate_player_can_hit ps r).is_valid = true) :
    ps.has_stayed = false ∧ ps.is_busted = false := by
  unfold validate_player_can_hit at h
  split at h
  · cases h
  split at h
  · cases h
  rename_i h1 h2
  split at h
  · cases h
  simp only [Bool.not_eq_true] at h1 h2
  exact ⟨h1, h2⟩

theorem deal_spec (shuffle : List Card → List Card) (e e' : Engine) (pid : String)
    (card : Card) (h : deal_card_to_player shuffle e pid card = .ok e') :
    ∃ (cr : RoundState) (ps0 : PlayerState),
      e.game_state.current_round = some cr
      ∧ lookupPS cr.player_states pid = some ps0
      ∧ ps0.has_stayed = false
      ∧ ps0.is_busted = false
      ∧ (let cfd := (remove_card_from_deck e.game_state.deck card).1.getD card
         let u := update_player_score_ps
           { ps0 with cards_in_hand := ps0.cards_in_hand ++ [cfd] }
         cfd.isAction = card.isAction
         ∧ (∃ psF, getPlayerAnywhere e'.game_state pid = some psF
             ∧ psF.cards_in_hand = ps0.cards_in_hand ++ [cfd]
             ∧ psF.is_busted = u.is_busted
             ∧ psF.has_second_chance = ps0.has_second_chance
             ∧ psF.round_score = u.round_score
             ∧ psF.has_stayed = false
             ∧ ((ps0.flip_three_active = true ∧ 0 < ps0.flip_three_count
                  ∧ cfd.isAction = false) →
                 psF.flip_three_count = ps0.flip_three_count - 1
                 ∧ psF.flip_three_active
                     = (if ps0.flip_three_count - 1 == 0 then false
                        else ps0.flip_three_active))
             ∧ (¬ (ps0.flip_three_active = true ∧ 0 < ps0.flip_three_count
                    ∧ cfd.isAction = false) →
                 psF.flip_three_count = ps0.flip_three_count
                 ∧ psF.flip_three_active = ps0.flip_three_active))
         ∧ ((∀ l, (shuffle l).Perm l) →
             liveCards e'.game_state
               = (match (remove_card_from_deck e.game_state.deck card).1 with
                  | some _ => liveCards e.game_state
                  | none => card ::ₘ liveCards e.game_state))
         ∧ ((e'.game_state.is_complete = e.game_state.is_complete
               ∧ e'.game_state.round_history = e.game_state.round_history)
            ∨ (e'.game_state.current_round = none
               ∧ ∃ rX, e'.game_state.round_history
                   = e.game_state.round_history ++ [rX]))) := by
  unfold deal_card_to_player at h
  split at h
  · cases h
  rename_i cr hr0
  split at h
  · cases h
  rename_i ps0 hps0
  dsimp only at h
  split at h
  · cases h
  rename_i hv
  have hvv : (validate_player_can_hit ps0 cr).is_valid = true := by
    by_contra hc
    apply hv
    simp only [Bool.not_eq_true] at hc
    rw [hc]
    rfl
  obtain ⟨hstay, hbust⟩ := can_hit_valid ps0 cr hvv
  refine ⟨cr, ps0, hr0, hps0, hstay, hbust, ?_⟩
  dsimp only at h ⊢
  rcases hrm : remove_card_from_deck e.game_state.deck card with ⟨found, deck1⟩
  rw [hrm] at h
  dsimp only at h
  dsimp only
  -- the engine after steps (a) and (b)
  set r2 : RoundState :=
    { cr.updatePlayer pid
        (fun p => { p with cards_in_hand := p.cards_in_hand ++ [found.getD card] }) with
      cards_remaining_in_deck := (deck1.length : Int) } with hr2
  set E1 : Engine :=
    { game_state := { e.game_state with deck := deck1, current_round := some r2 }
      events := e.events } with hE1d
  obtain ⟨m1, m2, m3, m4, m5, m6⟩ := maybeReshuffle_spec shuffle E1
  have hE1r : E1.game_state.current_round = some r2 := rfl
  rw [hE1r] at m5
  dsimp only at m5
  obtain ⟨cnt, hcnt2⟩ := m5
  split at h
  · rename_i heq
    rw [hcnt2] at heq
    cases heq
  rename_i rS hS
  have hrS : rS = { r2 with cards_remaining_in_deck := cnt } := by
    rw [hS] at hcnt2
    exact Option.some.inj hcnt2
  have hlookS : lookupPS rS.player_states pid
      = some { ps0 with cards_in_hand := ps0.cards_in_hand ++ [found.getD card] } := by
    rw [hrS]
    show lookupPS (updatePS cr.player_states pid _) pid = _
    rw [lookupPS_updatePS_self, hps0]
    rfl
  -- the engine after step (d)
  have hscore := update_player_score_some (maybeReshuffle shuffle E1).game_state pid rS hS
  split at h
  · cases h
  rename_i hname
  -- apply the dealFinish spec
  set u0 : PlayerState := update_player_score_ps
    { ps0 with cards_in_hand := ps0.cards_in_hand ++ [found.getD card] } with hu0
  have hu4 : lookupPS (rS.updatePlayer pid update_player_score_ps).player_states pid
      = some u0 := by
    show lookupPS (updatePS rS.player_states pid update_player_score_ps) pid = some u0
    rw [lookupPS_updatePS_self, hlookS]
    rfl
  obtain ⟨psF, g1, g2, g3, g4, g5, g6, g7, g8, g9, g10⟩ :=
    dealFinish_spec _ e' pid (found.getD card) ps0.flip_three_active
      (rS.updatePlayer pid update_player_score_ps)
      (by
        show (update_player_score (maybeReshuffle shuffle E1).game_state pid).current_round = _
        rw [hscore])
      u0 hu4 h
  obtain ⟨p1, p2, p3, p4, p5, p6, p7⟩ := update_ps_preserves
    { ps0 with cards_in_hand := ps0.cards_in_hand ++ [found.getD card] }
  refine ⟨?_, ⟨psF, g1, ?_, g3, ?_, g5, ?_, ?_, ?_⟩, ?_, ?_⟩
  · -- cfd.isAction = card.isAction
    cases hfound : found with
    | none => rfl
    | some c =>
      rw [hfound] at hrm
      obtain ⟨_, hmatch⟩ := remove_card_some e.game_state.deck card c deck1 hrm
      simpa using cards_match_action card c hmatch
  · rw [g2, hu0, p1]
  · rw [g4, hu0, p2]
  · rw [g6, hu0, p3]
    exact hstay
  · intro hcond
    have hcnt0 : 0 < u0.flip_three_count := by
      rw [hu0, p5]
      exact hcond.2.1
    obtain ⟨q1, q2⟩ := g7 ⟨hcond.1, hcnt0, hcond.2.2⟩
    rw [hu0, p5] at q1
    rw [hu0, p4, p5] at q2
    exact ⟨q1, q2⟩
  · intro hcond
    have hcond' : ¬ (ps0.flip_three_active = true ∧ 0 < u0.flip_three_count
        ∧ (found.getD card).isAction = false) := by
      intro hc
      apply hcond
      refine ⟨hc.1, ?_, hc.2.2⟩
      have hq := hc.2.1
      rw [hu0, p5] at hq
      exact hq
    obtain ⟨q1, q2⟩ := g8 hcond'
    rw [hu0, p5] at q1
    rw [hu0, p4] at q2
    exact ⟨q1, q2⟩
  · -- conservation of the live cards
    intro hperm
    rw [g9]
    show liveCards (update_player_score (maybeReshuffle shuffle E1).game_state pid) = _
    rw [hscore]
    rw [liveCards_some { (maybeReshuffle shuffle E1).game_state with
        current_round := some (rS.updatePlayer pid update_player_score_ps) }
      (rS.updatePlayer pid update_player_score_ps) rfl]
    show ((maybeReshuffle shuffle E1).game_state.deck : Multiset Card)
        + ((maybeReshuffle shuffle E1).game_state.discard_pile : Multiset Card)
        + (flattenHands (updatePS rS.player_states pid update_player_score_ps)
            : Multiset Card) = _
    rw [flattenHands_updatePS_congr _ _ _ (fun p => (update_ps_preserves p).1)]
    rw [m6 hperm]
    have hfl : flattenHands rS.player_states = flattenHands r2.player_states := by
      rw [hrS]
    rw [hfl]
    show (deck1 : Multiset Card) + (e.game_state.discard_pile : Multiset Card)
        + (flattenHands (updatePS cr.player_states pid
            (fun p => { p with cards_in_hand := p.cards_in_hand ++ [found.getD card] }))
              : Multiset Card) = _
    rw [flattenHands_append_multiset cr.player_states pid (found.getD card)
      (by rw [hps0]; rfl)]
    rw [liveCards_some e.game_state cr hr0]
    cases hfound : found with
    | none =>
      rw [hfound] at hrm
      have hdeck : deck1 = e.game_state.deck :=
        remove_card_none e.game_state.deck card deck1 hrm
      rw [hdeck]
      dsimp only [Option.getD]
      rw [Multiset.add_cons]
    | some c =>
      rw [hfound] at hrm
      obtain ⟨hdeck, _⟩ := remove_card_some e.game_state.deck card c deck1 hrm
      dsimp only [Option.getD]
      rw [hdeck]
      rw [Multiset.add_cons, Multiset.cons_add, Multiset.cons_add]
  · -- completion happens only together with a round end
    rcases g10 with ⟨ha, hb⟩ | ⟨_, hnone, ⟨rX, hrX⟩, _⟩
    · left
      constructor
      · rw [hb]
        show (update_player_score (maybeReshuffle shuffle E1).game_state pid).is_complete = _
        rw [hscore]
        show (maybeReshuffle shuffle E1).game_state.is_complete = _
        rw [m3]
      · rw [ha]
        show (update_player_score (maybeReshuffle shuffle E1).game_state pid).round_history = _
        rw [hscore]
        show (maybeReshuffle shuffle E1).game_state.round_history = _
        rw [m2]
    · right
      refine ⟨hnone, rX, ?_⟩
      rw [hrX]
      show (update_player_score (maybeReshuffle shuffle E1).game_state pid).round_history
          ++ [rX] = _
      rw [hscore]
      show (maybeReshuffle shuffle E1).game_state.round_history ++ [rX] = _
      rw [m2]

theorem findPlayerName_players (gs gs2 : GameState) (pid : String)
    (h : gs2.players = gs.players) : findPlayerName gs2 pid = findPlayerName gs pid := by
  unfold findPlayerName
  rw [h]

theorem foldl_max_init_le (l : List (String × PlayerState)) (a : Int) :
    a ≤ l.foldl (fun m kv => max m kv.2.total_score) a := by
  induction l generalizing a with
  | nil => exact le_refl a
  | cons kv t ih => exact le_trans (le_max_left a kv.2.total_score) (ih _)

theorem foldl_max_mem_le (l : List (String × PlayerState)) :
    ∀ (a : Int), ∀ kv ∈ l, kv.2.total_score ≤ l.foldl (fun m kv => max m kv.2.total_score) a := by
  induction l with
  | nil =>
    intro a kv h
    cases h
  | cons kv0 t ih =>
    intro a kv h
    rcases List.mem_cons.mp h with h | h
    · subst h
      exact le_trans (le_max_right a kv.2.total_score) (foldl_max_init_le t _)
    · exact ih _ kv h

theorem foldl_max_attained (l : List (String × PlayerState)) :
    ∀ a : Int, l.foldl (fun m kv => max m kv.2.total_score) a = a
      ∨ ∃ kv ∈ l, l.foldl (fun m kv => max m kv.2.total_score) a = kv.2.total_score := by
  induction l with
  | nil =>
    intro a
    exact Or.inl rfl
  | cons kv0 t ih =>
    intro a
    rcases ih (max a kv0.2.total_score) with h | ⟨kv, hm, h⟩
    · rcases max_choice a kv0.2.total_score with hc | hc
      · exact Or.inl (h.trans hc)
      · exact Or.inr ⟨kv0, List.mem_cons_self _ _, h.trans hc⟩
    · exact Or.inr ⟨kv, List.mem_cons_of_mem _ hm, h⟩

theorem filter_head_decomp {α : Type} (p : α → Bool) (l : List α) (a : α)
    (h : (l.filter p).head? = some a) :
    ∃ pre post, l = pre ++ a :: post ∧ p a = true ∧ ∀ x ∈ pre, p x = false := by
  induction l with
  | nil => cases h
  | cons b t ih =>
    by_cases hb : p b = true
    · rw [List.filter_cons_of_pos hb] at h
      have hba : b = a := by simpa [List.head?] using h
      subst hba
      exact ⟨[], t, rfl, hb, fun x hx => absurd hx (List.not_mem_nil x)⟩
    · have hb2 : p b = false := by
        cases hpb : p b
        · rfl
        · exact absurd hpb hb
      rw [List.filter_cons_of_neg (by simp [hb2])] at h
      obtain ⟨pre, post, h1, h2, h3⟩ := ih h
      refine ⟨b :: pre, post, by rw [h1]; rfl, h2, ?_⟩
      intro x hx
      rcases List.mem_cons.mp hx with hx | hx
      · subst hx
        exact hb2
      · exact h3 x hx

theorem check_win_condition_spec (states : List (String × PlayerState)) :
    (check_win_condition states = none ↔ ∀ kv ∈ states, kv.2.total_score < WINNING_SCORE)
    ∧ (∀ w, check_win_condition states = some w →
        ∃ psw pre post, states = pre ++ (w, psw) :: post
          ∧ WINNING_SCORE ≤ psw.total_score
          ∧ (∀ kv ∈ states, kv.2.total_score ≤ psw.total_score)
          ∧ (∀ kv ∈ pre, kv.2.total_score < psw.total_score)) := by
  cases states with
  | nil =>
    constructor
    · simp [check_win_condition]
    · intro w hw
      simp [check_win_condition] at hw
  | cons kv0 rest =>
    have hb : ∀ kv ∈ kv0 :: rest, kv.2.total_score ≤ maxTotalScore kv0.2 rest := by
      intro kv hm
      rcases List.mem_cons.mp hm with hh | ht
      · subst hh
        exact foldl_max_init_le rest kv.2.total_score
      · exact foldl_max_mem_le rest kv0.2.total_score kv ht
    by_cases hge : maxTotalScore kv0.2 rest ≥ WINNING_SCORE
    · have hatt : ∃ kv ∈ kv0 :: rest, kv.2.total_score = maxTotalScore kv0.2 rest := by
        rcases foldl_max_attained rest kv0.2.total_score with h | ⟨kv, hm, h⟩
        · exact ⟨kv0, List.mem_cons_self _ _, h.symm⟩
        · exact ⟨kv, List.mem_cons_of_mem _ hm, h.symm⟩
      obtain ⟨kvm, hkm, hkv⟩ := hatt
      have hmemf : kvm ∈ (kv0 :: rest).filter
          (fun kv => kv.2.total_score == maxTotalScore kv0.2 rest) := by
        rw [List.mem_filter]
        exact ⟨hkm, by simp [hkv]⟩
      cases hfl : (kv0 :: rest).filter
          (fun kv => kv.2.total_score == maxTotalScore kv0.2 rest) with
      | nil =>
        rw [hfl] at hmemf
        cases hmemf
      | cons kvw ftail =>
        have hh : ((kv0 :: rest).filter
            (fun kv => kv.2.total_score == maxTotalScore kv0.2 rest)).head? = some kvw := by
          rw [hfl]
          rfl
        have hres : check_win_condition (kv0 :: rest) = some kvw.1 := by
          unfold check_win_condition
          dsimp only
          rw [if_pos hge, hh]
        obtain ⟨pre, post, hdec, hp, hpre⟩ :=
          filter_head_decomp (fun kv => kv.2.total_score == maxTotalScore kv0.2 rest)
            (kv0 :: rest) kvw hh
        have hveq : kvw.2.total_score = maxTotalScore kv0.2 rest := by simpa using hp
        constructor
        · rw [hres]
          constructor
          · intro hc
            cases hc
          · intro hall
            exfalso
            have h1 := hall kvm hkm
            rw [hkv] at h1
            omega
        · intro w hw
          rw [hres] at hw
          have hww : w = kvw.1 := (Option.some.inj hw).symm
          subst hww
          refine ⟨kvw.2, pre, post, ?_, ?_, ?_, ?_⟩
          · rw [Prod.mk.eta]
            exact hdec
          · rw [hveq]
            exact hge
          · intro kv hm
            have := hb kv hm
            rw [hveq]
            exact this
          · intro kv hkvpre
            have hm : kv ∈ kv0 :: rest := by
              rw [hdec]
              exact List.mem_append_left _ hkvpre
            have hle := hb kv hm
            have hne : kv.2.total_score ≠ maxTotalScore kv0.2 rest := by
              have := hpre kv hkvpre
              simpa using this
            rw [hveq]
            exact lt_of_le_of_ne hle hne
    · have hres : check_win_condition (kv0 :: rest) = none := by
        unfold check_win_condition
        dsimp only
        rw [if_neg hge]
      constructor
      · rw [hres]
        constructor
        · intro _ kv hm
          have h1 := hb kv hm
          omega
        · intro _
          rfl
      · intro w hw
        rw [hres] at hw
        cases hw

theorem check_win_condition_key (states : List (String × PlayerState)) (w : String)
    (h : check_win_condition states = some w) : w ∈ states.map Prod.fst := by
  obtain ⟨psw, pre, post, hdec, _⟩ := (check_win_condition_spec states).2 w h
  rw [hdec]
  simp

theorem check_game_end_isOk (e : Engine)
    (hall : ∀ last, e.game_state.round_history.getLast? = some last → ∀ w,
        check_win_condition last.player_states = some w →
        isOkE (findPlayerName e.game_state w) = true) :
    ∃ e2, check_game_end e = .ok e2 := by
  unfold check_game_end
  cases hlast : e.game_state.round_history.getLast? with
  | none => exact ⟨e, rfl⟩
  | some last =>
    dsimp only
    cases hwin : check_win_condition last.player_states with
    | none => exact ⟨e, rfl⟩
    | some w =>
      dsimp only
      have hok := hall last hlast w hwin
      cases hname : findPlayerName e.game_state w with
      | error msg =>
        rw [hname] at hok
        cases hok
      | ok n => exact ⟨_, rfl⟩

theorem end_round_isOk (e : Engine) (r : RoundState)
    (hr : e.game_state.current_round = some r)
    (hall : ∀ pid ∈ r.player_states.map Prod.fst,
        isOkE (findPlayerName e.game_state pid) = true) :
    ∃ e2, end_round e = .ok e2 := by
  unfold end_round
  rw [hr]
  dsimp only [logEvent]
  apply check_game_end_isOk
  intro last hlast w hwin
  rw [List.getLast?_concat] at hlast
  have hlast2 : last = completeRound r := (Option.some.inj hlast).symm
  subst hlast2
  have hw : w ∈ (completeRound r).player_states.map Prod.fst :=
    check_win_condition_key _ w hwin
  rw [completeRound_states, List.map_map] at hw
  have hcong : r.player_states.map (Prod.fst ∘ endAdjustPS)
      = r.player_states.map Prod.fst :=
    List.map_congr_left (fun kv _ => (endAdjustPS_preserves kv).1)
  rw [hcong] at hw
  show isOkE (findPlayerName e.game_state w) = true
  exact hall w hw

theorem any_updatePS_congr (m : List (String × PlayerState)) (pid : String)
    (f : PlayerState → PlayerState) (g : String × PlayerState → Bool)
    (hf : ∀ k p, g (k, f p) = g (k, p)) :
    (updatePS m pid f).any g = m.any g := by
  induction m with
  | nil => rfl
  | cons kv rest ih =>
    unfold updatePS
    split
    · show (g (kv.1, f kv.2) || rest.any g) = (g kv || rest.any g)
      rw [hf kv.1 kv.2]
    · show (g kv || (updatePS rest pid f).any g) = (g kv || rest.any g)
      rw [ih]

theorem all_updatePS_nodup (m : List (String × PlayerState)) (pid : String)
    (f : PlayerState → PlayerState) (g : String × PlayerState → Bool)
    (hnd : (m.map Prod.fst).Nodup)
    (hothers : ∀ kv ∈ m, (kv.1 == pid) = false → g kv = true)
    (hupd : ∀ k p, (k == pid) = true → g (k, f p) = true) :
    (updatePS m pid f).all g = true := by
  induction m with
  | nil => rfl
  | cons kv rest ih =>
    unfold updatePS
    by_cases hk : (kv.1 == pid) = true
    · rw [if_pos hk]
      have hk2 : kv.1 = pid := by simpa using hk
      rw [List.all_cons]
      refine Bool.and_eq_true_iff.mpr ⟨hupd kv.1 kv.2 hk, ?_⟩
      rw [List.all_eq_true]
      intro kv2 hm2
      have hnotin : kv.1 ∉ rest.map Prod.fst := by
        rw [List.map_cons, List.nodup_cons] at hnd
        exact hnd.1
      have hne : (kv2.1 == pid) = false := by
        rw [beq_eq_false_iff_ne]
        intro hc
        apply hnotin
        rw [hk2, ← hc]
        exact List.mem_map_of_mem Prod.fst hm2
      exact hothers kv2 (List.mem_cons_of_mem _ hm2) hne
    · rw [if_neg hk]
      rw [List.all_cons]
      have hk3 : (kv.1 == pid) = false := by
        cases hkc : kv.1 == pid
        · rfl
        · exact absurd hkc hk
      refine Bool.and_eq_true_iff.mpr ⟨hothers kv (List.mem_cons_self _ _) hk3, ?_⟩
      refine ih ?_ ?_
      · rw [List.map_cons, List.nodup_cons] at hnd
        exact hnd.2
      · intro kv2 hm2 hne
        exact hothers kv2 (List.mem_cons_of_mem _ hm2) hne

theorem flattenHands_updatePS_parts (m : List (String × PlayerState)) (pid : String)
    (f : PlayerState → PlayerState) (ps : PlayerState) (h : lookupPS m pid = some ps) :
    ∃ pre post : List Card,
      flattenHands m = pre ++ (ps.cards_in_hand ++ post)
      ∧ flattenHands (updatePS m pid f) = pre ++ ((f ps).cards_in_hand ++ post) := by
  induction m with
  | nil => cases h
  | cons kv rest ih =>
    by_cases hk : (kv.1 == pid) = true
    · have hkv : kv.2 = ps := by
        unfold lookupPS at h
        rw [if_pos hk] at h
        exact Option.some.inj h
      refine ⟨[], flattenHands rest, ?_, ?_⟩
      · show kv.2.cards_in_hand ++ flattenHands rest
            = [] ++ (ps.cards_in_hand ++ flattenHands rest)
        rw [hkv]
        rfl
      · unfold updatePS
        rw [if_pos hk]
        show (f kv.2).cards_in_hand ++ flattenHands rest
            = [] ++ ((f ps).cards_in_hand ++ flattenHands rest)
        rw [hkv]
        rfl
    · have h2 : lookupPS rest pid = some ps := by
        unfold lookupPS at h
        rw [if_neg hk] at h
        exact h
      obtain ⟨pre, post, h1, h3⟩ := ih h2
      refine ⟨kv.2.cards_in_hand ++ pre, post, ?_, ?_⟩
      · show kv.2.cards_in_hand ++ flattenHands rest = _
        rw [h1, List.append_assoc]
      · unfold updatePS
        rw [if_neg hk]
        show kv.2.cards_in_hand ++ flattenHands (updatePS rest pid f) = _
        rw [h3, List.append_assoc]

theorem player_hit_spec (e e2 : Engine) (pid : String) (h : player_hit e pid = .ok e2) :
    e2.game_state = e.game_state := by
  unfold player_hit at h
  split at h
  · cases h
  split at h
  · cases h
  dsimp only at h
  split at h
  · cases h
  split at h
  · cases h
  injection h with h
  subst h
  rfl

theorem sc_usage_valid (ps : PlayerState) (card : Card)
    (h : (validate_second_chance_usage ps card).is_valid = true) :
    ps.has_second_chance = true ∧ card ∈ ps.cards_in_hand := by
  unfold validate_second_chance_usage at h
  split at h
  · cases h
  rename_i h1
  split at h
  · cases h
  rename_i h2
  simp at h1 h2
  exact ⟨h1, h2⟩

theorem player_stay_spec (e e2 : Engine) (pid : String)
    (h : player_stay e pid = .ok e2) :
    ∃ r, e.game_state.current_round = some r
    ∧ liveCards e2.game_state = liveCards e.game_state
    ∧ ((e2.game_state.is_complete = e.game_state.is_complete
          ∧ e2.game_state.round_history = e.game_state.round_history)
       ∨ (e2.game_state.current_round = none
          ∧ ∃ rX, e2.game_state.round_history = e.game_state.round_history ++ [rX])) := by
  unfold player_stay at h
  split at h
  · cases h
  rename_i r hr
  split at h
  · cases h
  rename_i ps hps
  dsimp only [RoundState.updatePlayer] at h
  split at h
  · cases h
  refine ⟨r, hr, ?_⟩
  split at h
  · cases h
  have hfh : flattenHands (updatePS r.player_states pid (fun p => { p with has_stayed := true, round_score := (calculate_score ps.cards_in_hand).final_score, total_score := p.total_score + (calculate_score ps.cards_in_hand).final_score })) = flattenHands r.player_states :=
    flattenHands_updatePS_congr _ _ _ (fun p => rfl)
  split at h
  · rename_i hend
    obtain ⟨s1, s2, s3, _, s5, s6, _, _⟩ := end_round_spec _ e2 _ rfl h
    refine ⟨?_, Or.inr ⟨s1, _, s2⟩⟩
    rw [liveCards_none _ s1, s3, s5, completeRound_states, flattenHands_map_endAdjust,
      ← Multiset.coe_add]
    dsimp only [logEvent]
    rw [hfh, add_zero, liveCards_some e.game_state r hr, add_assoc]
  · injection h with h
    subst h
    refine ⟨?_, Or.inl ⟨rfl, rfl⟩⟩
    rw [liveCards_some _ _ rfl]
    dsimp only [logEvent]
    rw [hfh, liveCards_some e.game_state r hr]

theorem use_second_chance_spec (e e2 : Engine) (pid : String) (card : Card)
    (h : use_second_chance e pid card = .ok e2) :
    ∃ r ps sc, e.game_state.current_round = some r
      ∧ lookupPS r.player_states pid = some ps
      ∧ ps.has_second_chance = true
      ∧ sc.isSecondChance = true
      ∧ (∃ psF, getPlayerAnywhere e2.game_state pid = some psF
          ∧ psF.has_second_chance = false
          ∧ psF.cards_in_hand = (ps.cards_in_hand.erase card).erase sc)
      ∧ liveCards e.game_state = card ::ₘ sc ::ₘ liveCards e2.game_state
      ∧ e2.game_state.is_complete = e.game_state.is_complete
      ∧ e2.game_state.round_history = e.game_state.round_history := by
  unfold use_second_chance at h
  split at h
  · cases h
  rename_i r hr
  split at h
  · cases h
  rename_i ps hps
  dsimp only [RoundState.updatePlayer] at h
  split at h
  · cases h
  rename_i hvcond
  have hv : (validate_second_chance_usage ps card).is_valid = true := by
    by_contra hc
    apply hvcond
    simp only [Bool.not_eq_true] at hc
    rw [hc]
    rfl
  obtain ⟨hflag, hmem⟩ := sc_usage_valid ps card hv
  split at h
  · cases h
  rename_i sc hfind
  rw [update_player_score_some _ pid _ rfl] at h
  dsimp only [RoundState.updatePlayer] at h
  split at h
  · cases h
  injection h with h
  subst h
  have hscmem : sc ∈ ps.cards_in_hand.erase card := List.mem_of_find?_eq_some hfind
  have hscp : sc.isSecondChance = true := List.find?_some hfind
  have hlook1 : lookupPS (updatePS r.player_states pid (fun p => { p with cards_in_hand := (ps.cards_in_hand.erase card).erase sc, has_second_chance := false })) pid = some { ps with cards_in_hand := (ps.cards_in_hand.erase card).erase sc, has_second_chance := false } := by
    rw [lookupPS_updatePS_self, hps]
    rfl
  refine ⟨r, ps, sc, hr, hps, hflag, hscp, ⟨update_player_score_ps { ps with cards_in_hand := (ps.cards_in_hand.erase card).erase sc, has_second_chance := false }, ?_, ?_, ?_⟩, ?_, rfl, rfl⟩
  · show lookupPS (updatePS (updatePS r.player_states pid _) pid update_player_score_ps) pid = some (update_player_score_ps { ps with cards_in_hand := (ps.cards_in_hand.erase card).erase sc, has_second_chance := false })
    rw [lookupPS_updatePS_self, hlook1]
    rfl
  · exact (update_ps_preserves _).2.1
  · exact (update_ps_preserves _).1
  · -- conservation: the duplicate and the Second Chance card leave play
    obtain ⟨pre, post, hp1, hp2⟩ := flattenHands_updatePS_parts r.player_states pid (fun p => { p with cards_in_hand := (ps.cards_in_hand.erase card).erase sc, has_second_chance := false }) ps hps
    have hc1 : (ps.cards_in_hand : Multiset Card)
        = card ::ₘ ((ps.cards_in_hand.erase card : List Card) : Multiset Card) := by
      rw [Multiset.coe_eq_coe.mpr (List.perm_cons_erase hmem)]
      rfl
    have hc2 : ((ps.cards_in_hand.erase card : List Card) : Multiset Card)
        = sc ::ₘ (((ps.cards_in_hand.erase card).erase sc : List Card) : Multiset Card) := by
      rw [Multiset.coe_eq_coe.mpr (List.perm_cons_erase hscmem)]
      rfl
    rw [liveCards_some e.game_state r hr, liveCards_some _ _ rfl]
    dsimp only [logEvent]
    rw [flattenHands_updatePS_congr _ _ update_player_score_ps
      (fun p => (update_ps_preserves p).1)]
    rw [hp1, hp2]
    rw [← Multiset.coe_add, ← Multiset.coe_add, ← Multiset.coe_add, ← Multiset.coe_add,
      hc1, hc2]
    rw [Multiset.cons_add, Multiset.cons_add, Multiset.add_cons, Multiset.add_cons,
      Multiset.add_cons, Multiset.add_cons]

theorem apply_effect_spec (e e2 : Engine) (a : ActionType) (tpid : String) (o : Option String)
    (h : apply_action_card_effect e a tpid o = .ok e2) :
    liveCards e2.game_state = liveCards e.game_state
    ∧ ((e2.game_state.is_complete = e.game_state.is_complete
          ∧ e2.game_state.round_history = e.game_state.round_history)
       ∨ (e2.game_state.current_round = none
          ∧ ∃ rX, e2.game_state.round_history = e.game_state.round_history ++ [rX])) := by
  unfold apply_action_card_effect at h
  split at h
  · cases h
  rename_i r hr
  split at h
  · cases h
  rename_i ts hts
  split at h
  · cases h
  split at h
  · cases h
  unfold apply_action_card at h
  rw [hr] at h
  dsimp only at h
  rw [hts] at h
  dsimp only at h
  split at h
  · cases h
  split at h
  · cases h
  cases a with
  | freeze =>
    dsimp only [RoundState.updatePlayer] at h
    have hfh : flattenHands (updatePS r.player_states tpid freezeAdjust)
        = flattenHands r.player_states :=
      flattenHands_updatePS_congr _ _ _ (fun p => rfl)
    split at h
    · obtain ⟨s1, s2, s3, _, s5, s6, _, _⟩ := end_round_spec _ e2 _ rfl h
      refine ⟨?_, Or.inr ⟨s1, _, s2⟩⟩
      rw [liveCards_none _ s1, s3, s5, completeRound_states, flattenHands_map_endAdjust,
        ← Multiset.coe_add]
      dsimp only [logEvent]
      rw [hfh, add_zero, liveCards_some e.game_state r hr, add_assoc]
    · injection h with h
      subst h
      refine ⟨?_, Or.inl ⟨rfl, rfl⟩⟩
      rw [liveCards_some _ _ rfl]
      dsimp only [logEvent]
      rw [hfh, liveCards_some e.game_state r hr]
  | flip_three =>
    dsimp only [RoundState.updatePlayer] at h
    injection h with h
    subst h
    have hfh : flattenHands (updatePS r.player_states tpid (fun p => { p with flip_three_active := true, flip_three_count := 3 })) = flattenHands r.player_states :=
      flattenHands_updatePS_congr _ _ _ (fun p => rfl)
    refine ⟨?_, Or.inl ⟨rfl, rfl⟩⟩
    rw [liveCards_some _ _ rfl]
    dsimp only [logEvent]
    rw [hfh, liveCards_some e.game_state r hr]
  | second_chance =>
    dsimp only [RoundState.updatePlayer] at h
    split at h
    · injection h with h
      subst h
      exact ⟨rfl, Or.inl ⟨rfl, rfl⟩⟩
    · have hfh1 : flattenHands (updatePS r.player_states tpid (fun p => { p with has_second_chance := true })) = flattenHands r.player_states :=
        flattenHands_updatePS_congr _ _ _ (fun p => rfl)
      cases o with
      | none =>
        dsimp only at h
        injection h with h
        subst h
        refine ⟨?_, Or.inl ⟨rfl, rfl⟩⟩
        rw [liveCards_some _ _ rfl]
        dsimp only [logEvent]
        rw [hfh1, liveCards_some e.game_state r hr]
      | some oo =>
        dsimp only at h
        by_cases hoo : (oo != tpid) = true
        · rw [if_pos hoo] at h
          have hne : tpid ≠ oo := by
            rw [bne_iff_ne] at hoo
            exact fun hc => hoo hc.symm
          split at h
          · cases h
          rename_i r2 hmoved
          injection h with h
          subst h
          split at hmoved
          · cases hmoved
          rename_i orig horig
          split at hmoved
          · injection hmoved with hmoved
            subst hmoved
            refine ⟨?_, Or.inl ⟨rfl, rfl⟩⟩
            rw [liveCards_some _ _ rfl]
            dsimp only [logEvent]
            rw [hfh1, liveCards_some e.game_state r hr]
          · rename_i sc hfind
            injection hmoved with hmoved
            subst hmoved
            have hlt : lookupPS (updatePS (updatePS r.player_states tpid (fun p => { p with has_second_chance := true })) oo (fun p => { p with cards_in_hand := p.cards_in_hand.erase sc })) tpid = some { ts with has_second_chance := true } := by
              rw [lookupPS_updatePS_ne _ oo tpid _ hne, lookupPS_updatePS_self, hts]
              rfl
            obtain ⟨pre, post, hp1, hp2⟩ := flattenHands_updatePS_parts
              (updatePS r.player_states tpid (fun p => { p with has_second_chance := true }))
              oo (fun p => { p with cards_in_hand := p.cards_in_hand.erase sc }) orig horig
            have hp2b : flattenHands (updatePS (updatePS r.player_states tpid (fun p => { p with has_second_chance := true })) oo (fun p => { p with cards_in_hand := p.cards_in_hand.erase sc })) = pre ++ (orig.cards_in_hand.erase sc ++ post) := hp2
            have happ := flattenHands_append_multiset
              (updatePS (updatePS r.player_states tpid (fun p => { p with has_second_chance := true })) oo (fun p => { p with cards_in_hand := p.cards_in_hand.erase sc }))
              tpid sc (by rw [hlt]; rfl)
            have hscmem : sc ∈ orig.cards_in_hand := List.mem_of_find?_eq_some hfind
            have hcons : (orig.cards_in_hand : Multiset Card) = sc ::ₘ ((orig.cards_in_hand.erase sc : List Card) : Multiset Card) := by
              rw [Multiset.coe_eq_coe.mpr (List.perm_cons_erase hscmem)]
              rfl
            have hfr : flattenHands r.player_states = pre ++ (orig.cards_in_hand ++ post) :=
              hfh1 ▸ hp1
            refine ⟨?_, Or.inl ⟨rfl, rfl⟩⟩
            rw [liveCards_some _ _ rfl]
            dsimp only [logEvent]
            rw [liveCards_some e.game_state r hr, happ, hp2b, hfr]
            congr 1
            rw [← Multiset.coe_add, ← Multiset.coe_add, ← Multiset.coe_add, ← Multiset.coe_add,
              hcons, Multiset.cons_add, Multiset.add_cons]
        · rw [if_neg hoo] at h
          dsimp only at h
          injection h with h
          subst h
          refine ⟨?_, Or.inl ⟨rfl, rfl⟩⟩
          rw [liveCards_some _ _ rfl]
          dsimp only [logEvent]
          rw [hfh1, liveCards_some e.game_state r hr]
  | score_modifier =>
    injection h with h
    subst h
    exact ⟨rfl, Or.inl ⟨rfl, rfl⟩⟩

theorem orig_check_ok (e : Engine) (tpid : String) (o : Option String) :
    (match o with
     | some oo => oo == tpid || isOkE (findPlayerName e.game_state oo)
     | none => true) = true →
    (match o with
     | some oo => if oo != tpid then (findPlayerName e.game_state oo).map (fun _ => ()) else .ok ()
     | none => .ok ()) = (.ok () : Except String Unit) := by
  intro horig
  cases o with
  | none => rfl
  | some oo =>
    dsimp only at horig ⊢
    by_cases hoo : (oo != tpid) = true
    · rw [if_pos hoo]
      have hbeq : (oo == tpid) = false := by
        cases hc : oo == tpid
        · rfl
        · exfalso
          rw [bne_iff_ne] at hoo
          exact hoo (by simpa using hc)
      rw [hbeq] at horig
      simp only [Bool.false_or] at horig
      cases hfn : findPlayerName e.game_state oo with
      | error m =>
        rw [hfn] at horig
        cases horig
      | ok n => rfl
    · rw [if_neg hoo]

theorem apply_freeze_ok (e : Engine) (tpid : String) (o : Option String)
    (r : RoundState) (hr : e.game_state.current_round = some r)
    (ts : PlayerState) (hts : lookupPS r.player_states tpid = some ts)
    (hstay : ts.has_stayed = false)
    (hall : ∀ kv ∈ r.player_states, isOkE (findPlayerName e.game_state kv.1) = true)
    (horig : (match o with
              | some oo => oo == tpid || isOkE (findPlayerName e.game_state oo)
              | none => true) = true) :
    ∃ e2, apply_action_card_effect e ActionType.freeze tpid o = .ok e2
      ∧ getPlayerAnywhere e2.game_state tpid = some (freezeAdjust ts) := by
  have hname : isOkE (findPlayerName e.game_state tpid) = true :=
    hall (tpid, ts) (lookupPS_mem _ _ _ hts)
  obtain ⟨n, hn⟩ : ∃ n, findPlayerName e.game_state tpid = .ok n := by
    cases hfn : findPlayerName e.game_state tpid with
    | error m =>
      rw [hfn] at hname
      cases hname
    | ok n => exact ⟨n, rfl⟩
  have hlook1 : lookupPS (r.updatePlayer tpid freezeAdjust).player_states tpid
      = some (freezeAdjust ts) := by
    show lookupPS (updatePS r.player_states tpid freezeAdjust) tpid = _
    rw [lookupPS_updatePS_self, hts]
    rfl
  revert horig
  unfold apply_action_card_effect
  rw [hr]
  dsimp only
  rw [hts]
  dsimp only
  rw [if_neg (show ¬ ((ts.has_stayed && (ActionType.freeze == ActionType.freeze || ActionType.freeze == ActionType.flip_three)) = true) by simp [hstay])]
  rw [if_neg (show ¬ ((((ActionType.freeze == ActionType.second_chance) && (match o with | some oo => oo == tpid | none => false)) && ts.has_second_chance) = true) by simp)]
  unfold apply_action_card
  rw [hr]
  dsimp only
  rw [hts]
  dsimp only
  rw [hn]
  dsimp only
  intro horig
  rw [orig_check_ok e tpid o horig]
  dsimp only
  by_cases hend : check_round_end_condition (r.updatePlayer tpid freezeAdjust) = true
  · rw [if_pos hend]
    have hall2 : ∀ pid ∈ (r.updatePlayer tpid freezeAdjust).player_states.map Prod.fst,
        isOkE (findPlayerName (logEvent { e with game_state := { e.game_state with current_round := some (r.updatePlayer tpid freezeAdjust) } } (Event.actionCardApplied tpid ActionType.freeze)).game_state pid) = true := by
      intro pid hp
      have hkeys : (r.updatePlayer tpid freezeAdjust).player_states.map Prod.fst
          = r.player_states.map Prod.fst := keys_updatePS _ _ _
      rw [hkeys] at hp
      obtain ⟨kv, hkv, hkveq⟩ := List.mem_map.mp hp
      subst hkveq
      show isOkE (findPlayerName e.game_state kv.1) = true
      exact hall kv hkv
    obtain ⟨eF, hF⟩ := end_round_isOk
      (logEvent { e with game_state := { e.game_state with current_round := some (r.updatePlayer tpid freezeAdjust) } } (Event.actionCardApplied tpid ActionType.freeze))
      (r.updatePlayer tpid freezeAdjust) rfl hall2
    refine ⟨eF, hF, ?_⟩
    obtain ⟨s1, s2, _, _, _, _, _, _⟩ :=
      end_round_spec _ eF (r.updatePlayer tpid freezeAdjust) rfl hF
    rw [getPlayerAnywhere_none eF.game_state _ (completeRound (r.updatePlayer tpid freezeAdjust)) s1 s2]
    rw [completeRound_states, lookupPS_map_endAdjust, hlook1]
    dsimp only [Option.map]
    rw [endAdjustPS_of_resolved (tpid, freezeAdjust ts) (Or.inl rfl)]
  · rw [if_neg hend]
    refine ⟨_, rfl, ?_⟩
    rw [getPlayerAnywhere_some _ (r.updatePlayer tpid freezeAdjust) rfl]
    exact hlook1

theorem apply_flip3_ok (e : Engine) (tpid : String) (o : Option String)
    (r : RoundState) (hr : e.game_state.current_round = some r)
    (ts : PlayerState) (hts : lookupPS r.player_states tpid = some ts)
    (hstay : ts.has_stayed = false)
    (hall : ∀ kv ∈ r.player_states, isOkE (findPlayerName e.game_state kv.1) = true)
    (horig : (match o with
              | some oo => oo == tpid || isOkE (findPlayerName e.game_state oo)
              | none => true) = true) :
    ∃ e2, apply_action_card_effect e ActionType.flip_three tpid o = .ok e2 := by
  have hname : isOkE (findPlayerName e.game_state tpid) = true :=
    hall (tpid, ts) (lookupPS_mem _ _ _ hts)
  obtain ⟨n, hn⟩ : ∃ n, findPlayerName e.game_state tpid = .ok n := by
    cases hfn : findPlayerName e.game_state tpid with
    | error m =>
      rw [hfn] at hname
      cases hname
    | ok n => exact ⟨n, rfl⟩
  revert horig
  unfold apply_action_card_effect
  rw [hr]
  dsimp only
  rw [hts]
  dsimp only
  rw [if_neg (show ¬ ((ts.has_stayed && (ActionType.flip_three == ActionType.freeze || ActionType.flip_three == ActionType.flip_three)) = true) by simp [hstay])]
  rw [if_neg (show ¬ ((((ActionType.flip_three == ActionType.second_chance) && (match o with | some oo => oo == tpid | none => false)) && ts.has_second_chance) = true) by simp)]
  unfold apply_action_card
  rw [hr]
  dsimp only
  rw [hts]
  dsimp only
  rw [hn]
  dsimp only
  intro horig
  rw [orig_check_ok e tpid o horig]
  dsimp only
  exact ⟨_, rfl⟩

theorem apply_sc_flag (e e2 : Engine) (tpid : String) (o : Option String)
    (h : apply_action_card_effect e ActionType.second_chance tpid o = .ok e2) :
    ∃ ts2, getPlayerAnywhere e2.game_state tpid = some ts2
      ∧ ts2.has_second_chance = true := by
  unfold apply_action_card_effect at h
  split at h
  · cases h
  rename_i r hr
  split at h
  · cases h
  rename_i ts hts
  split at h
  · cases h
  split at h
  · cases h
  unfold apply_action_card at h
  rw [hr] at h
  dsimp only at h
  rw [hts] at h
  dsimp only at h
  split at h
  · cases h
  split at h
  · cases h
  dsimp only [RoundState.updatePlayer] at h
  split at h
  · rename_i hflag
    injection h with h
    subst h
    refine ⟨ts, ?_, hflag⟩
    rw [getPlayerAnywhere_some e.game_state r hr]
    exact hts
  · split at h
    · cases h
    rename_i r2 hmoved
    injection h with h
    subst h
    have hget : getPlayerAnywhere (logEvent { e with game_state := { e.game_state with current_round := some r2 } } (Event.actionCardApplied tpid ActionType.second_chance)).game_state tpid = lookupPS r2.player_states tpid :=
      getPlayerAnywhere_some (logEvent { e with game_state := { e.game_state with current_round := some r2 } } (Event.actionCardApplied tpid ActionType.second_chance)).game_state r2 rfl tpid
    rw [hget]
    have hlook1 : lookupPS (updatePS r.player_states tpid (fun p => { p with has_second_chance := true })) tpid = some { ts with has_second_chance := true } := by
      rw [lookupPS_updatePS_self, hts]
      rfl
    cases o with
    | none =>
      injection hmoved with hmoved
      subst hmoved
      exact ⟨_, hlook1, rfl⟩
    | some oo =>
      dsimp only at hmoved
      by_cases hoo : (oo != tpid) = true
      · rw [if_pos hoo] at hmoved
        have hne : tpid ≠ oo := by
          rw [bne_iff_ne] at hoo
          exact fun hc => hoo hc.symm
        split at hmoved
        · cases hmoved
        rename_i orig horig
        split at hmoved
        · injection hmoved with hmoved
          subst hmoved
          exact ⟨_, hlook1, rfl⟩
        · rename_i sc hfind
          injection hmoved with hmoved
          subst hmoved
          rw [lookupPS_updatePS_self, lookupPS_updatePS_ne _ oo tpid _ hne, hlook1]
          exact ⟨_, rfl, rfl⟩
      · rw [if_neg hoo] at hmoved
        injection hmoved with hmoved
        subst hmoved
        exact ⟨_, hlook1, rfl⟩

/-- C1: `calculate_score` returns a breakdown with
`final_score = (base_score + bonus_points) * multiplier + flip_7_bonus`,
where `base_score` sums the number-card values, `bonus_points` sums the
additive modifier values, `multiplier` is 2 exactly when a MULTIPLY_2
modifier is present and 1 otherwise, and `flip_7_bonus` is positive (15) iff
the number-card count is exactly 7; the empty hand scores 0 and a hand with
more than 7 number cards gets no flip bonus. -/
theorem C1_calculate_score_breakdown (cards : List Card) :
    (calculate_score cards).final_score =
      ((calculate_score cards).base_score + (calculate_score cards).bonus_points)
        * (calculate_score cards).multiplier + (calculate_score cards).flip_7_bonus
    ∧ (calculate_score cards).base_score = ((cards.filter Card.isNumber).map Card.value).sum
    ∧ (calculate_score cards).bonus_points =
        ((cards.filter (fun c => c.isModifier && !c.isMultiply2)).map Card.value).sum
    ∧ (calculate_score cards).multiplier =
        (if cards.any Card.isMultiply2 then 2 else 1)
    ∧ (calculate_score cards).flip_7_bonus =
        (if (cards.filter Card.isNumber).length = 7 then 15 else 0)
    ∧ (0 < (calculate_score cards).flip_7_bonus
        ↔ (cards.filter Card.isNumber).length = 7)
    ∧ (calculate_score []).final_score = 0 := by
  refine ⟨rfl, rfl, ?_, ?_, ?_, ?_, rfl⟩
  · show (cards.filter Card.isModifier).foldl
        (fun acc c => if c.isMultiply2 then acc else acc + c.value) 0 = _
    rw [bonus_foldl_eq_sum, filter_mult_of_not_modifier, zero_add]
  · show (if (cards.filter Card.isModifier).any Card.isMultiply2 then (2 : Int) else 1) = _
    rw [any_mult_filter]
  · show (if ((cards.filter Card.isNumber).length == FLIP_7_REQUIRED_CARDS) = true
        then FLIP_7_BONUS_POINTS else 0) = _
    simp [FLIP_7_REQUIRED_CARDS, FLIP_7_BONUS_POINTS]
  · show 0 < (if ((cards.filter Card.isNumber).length == FLIP_7_REQUIRED_CARDS) = true
        then FLIP_7_BONUS_POINTS else 0) ↔ _
    by_cases h : (cards.filter Card.isNumber).length = 7
    · simp [h, FLIP_7_REQUIRED_CARDS, FLIP_7_BONUS_POINTS]
    · simp [h, FLIP_7_REQUIRED_CARDS, FLIP_7_BONUS_POINTS]

/-- C8: `validate_player_can_stay` denies exactly when the player has already
stayed, is busted, or has a Flip Three effect with cards still owed, each case
with its specific reason, and permits staying in every other case; the
verdict never depends on the hand (so 7 or more number cards never block a
stay). -/
theorem C8_validate_player_can_stay_spec (ps : PlayerState) (r : RoundState) :
    ((validate_player_can_stay ps r).is_valid = false
      ↔ (ps.has_stayed = true ∨ ps.is_busted = true
          ∨ (ps.flip_three_active = true ∧ 0 < ps.flip_three_count)))
    ∧ (ps.has_stayed = true →
        (validate_player_can_stay ps r).error_message = some "Player has already stayed")
    ∧ (ps.has_stayed = false → ps.is_busted = true →
        (validate_player_can_stay ps r).error_message
          = some "Player is busted and cannot stay")
    ∧ (ps.has_stayed = false → ps.is_busted = false → ps.flip_three_active = true →
        0 < ps.flip_three_count →
        (validate_player_can_stay ps r).error_message
          = some ("Player must accept " ++ toString ps.flip_three_count
              ++ " more cards (Flip Three active)"))
    ∧ (∀ hand : List Card,
        validate_player_can_stay { ps with cards_in_hand := hand } r
          = validate_player_can_stay ps r) := by
  unfold validate_player_can_stay
  by_cases h1 : ps.has_stayed = true <;>
    by_cases h2 : ps.is_busted = true <;>
      by_cases h3 : ps.flip_three_active = true <;>
        by_cases h4 : 0 < ps.flip_three_count <;>
          simp_all [gt_iff_lt, Int.not_lt]
  rw [if_neg (show ¬ (0 : Int) < ps.flip_three_count by omega)]
  simp
  omega

/-- C2 (amended): immediately after every successful `deal_card_to_player`,
the dealt player's `is_busted` is true iff their hand holds two number cards
of equal value and `has_second_chance` is false, and a busted player's
`round_score` is 0. (As a global reachable-state invariant the claim fails:
applying a Freeze to an already-busted player recomputes `round_score` from
the untouched hand while `is_busted` stays true — see the counterexample.) -/
theorem C2_bust_iff_after_deal (shuffle : List Card → List Card) (e e' : Engine)
    (pid : String) (card : Card)
    (h : deal_card_to_player shuffle e pid card = .ok e')
    (psF : PlayerState) (hpsF : getPlayerAnywhere e'.game_state pid = some psF) :
    (psF.is_busted = true
      ↔ (check_for_duplicate_cards psF.cards_in_hand = true
          ∧ psF.has_second_chance = false))
    ∧ (psF.is_busted = true → psF.round_score = 0) := by
  obtain ⟨cr, ps0, hr0, hps0, hstay, hbust, hrest⟩ := deal_spec shuffle e e' pid card h
  dsimp only at hrest
  obtain ⟨hcfd, ⟨psF', g1, g2, g3, g4, g5, g6, g7, g8⟩, _, _⟩ := hrest
  have hpsF' : psF' = psF := by
    rw [g1] at hpsF
    exact Option.some.inj hpsF
  subst hpsF'
  obtain ⟨b1, b2⟩ := update_ps_busted
    { ps0 with cards_in_hand := ps0.cards_in_hand
        ++ [(remove_card_from_deck e.game_state.deck card).1.getD card] } hbust
  constructor
  · rw [g3, g2, g4]
    exact b1
  · intro hbq
    rw [g5]
    rw [g3] at hbq
    exact b2 hbq

/-- C2 counterexample: the claimed reachable-state invariant is false. From a
fresh two-player game, P0 draws two 5s and busts (`round_score = 0`); a
Freeze effect then applied to the busted P0 recomputes `round_score` to 10
from the duplicate hand while `is_busted` remains true. -/
theorem C2_busted_round_score_counterexample :
    start_new_game idShuffle demoIds ["Alice", "Bob"] = Except.ok startOnly
    ∧ start_new_round startOnly = Except.ok demoEngine
    ∧ deal_card_to_player idShuffle demoEngine "P0" (Card.number 900 5) = Except.ok d5a
    ∧ deal_card_to_player idShuffle d5a "P0" (Card.number 901 5) = Except.ok d5b
    ∧ (getPlayerD d5b.game_state "P0").is_busted = true
    ∧ (getPlayerD d5b.game_state "P0").round_score = 0
    ∧ apply_action_card_effect d5b ActionType.freeze "P0" none = Except.ok frz0
    ∧ (getPlayerD frz0.game_state "P0").is_busted = true
    ∧ (getPlayerD frz0.game_state "P0").round_score = 10 := by
  refine ⟨?_, ?_, ?_, ?_, ?_, ?_, ?_, ?_, ?_⟩ <;> decide

/-- C2 witness: the amended per-deal property at a concrete input (P0 drew
one 5 from a fresh game). -/
theorem C2_bust_iff_after_deal_witness :
    ((getPlayerD d5a.game_state "P0").is_busted = true
      ↔ (check_for_duplicate_cards (getPlayerD d5a.game_state "P0").cards_in_hand = true
          ∧ (getPlayerD d5a.game_state "P0").has_second_chance = false))
    ∧ ((getPlayerD d5a.game_state "P0").is_busted = true
        → (getPlayerD d5a.game_state "P0").round_score = 0) :=
  C2_bust_iff_after_deal idShuffle demoEngine d5a "P0" (Card.number 900 5)
    (by decide) (getPlayerD d5a.game_state "P0") (by decide)

/-- C3: while a Flip Three effect is active with cards still owed, a deal of
a non-Action card decrements `flip_three_count` by exactly 1 and clears
`flip_three_active` exactly when the count reaches 0, while a deal of an
Action card leaves the count and the active flag untouched; concretely,
starting from count 3, dealing one Action card and then three non-Action
cards leaves the effect active with count 1 after the second non-Action card
and cleared exactly after the third. -/
theorem C3_flip_three_counting (shuffle : List Card → List Card) (e e' : Engine)
    (pid : String) (card : Card) (cr : RoundState) (ps0 : PlayerState)
    (hr0 : e.game_state.current_round = some cr)
    (hps0 : lookupPS cr.player_states pid = some ps0)
    (hactive : ps0.flip_three_active = true)
    (hcount : 0 < ps0.flip_three_count)
    (h : deal_card_to_player shuffle e pid card = .ok e')
    (psF : PlayerState) (hpsF : getPlayerAnywhere e'.game_state pid = some psF) :
    ((card.isAction = false →
        psF.flip_three_count = ps0.flip_three_count - 1
        ∧ (psF.flip_three_active = true ↔ ps0.flip_three_count ≠ 1))
      ∧ (card.isAction = true →
          psF.flip_three_count = ps0.flip_three_count
          ∧ psF.flip_three_active = true))
    ∧ ((getPlayerD f3b.game_state "P0").flip_three_active = true
        ∧ (getPlayerD f3b.game_state "P0").flip_three_count = 3)
    ∧ ((getPlayerD f3c.game_state "P0").flip_three_active = true
        ∧ (getPlayerD f3c.game_state "P0").flip_three_count = 3)
    ∧ ((getPlayerD f3d.game_state "P0").flip_three_active = true
        ∧ (getPlayerD f3d.game_state "P0").flip_three_count = 2)
    ∧ ((getPlayerD f3e.game_state "P0").flip_three_active = true
        ∧ (getPlayerD f3e.game_state "P0").flip_three_count = 1)
    ∧ ((getPlayerD f3f.game_state "P0").flip_three_active = false
        ∧ (getPlayerD f3f.game_state "P0").flip_three_count = 0) := by
  refine ⟨?_, by decide, by decide, by decide, by decide, by decide⟩
  obtain ⟨cr', ps0', hr0', hps0', hstay, hbust, hrest⟩ := deal_spec shuffle e e' pid card h
  have hcr : cr = cr' := Option.some.inj (hr0.symm.trans hr0')
  subst hcr
  have hps : ps0 = ps0' := Option.some.inj (hps0.symm.trans hps0')
  subst hps
  dsimp only at hrest
  obtain ⟨hcfd, ⟨psF', g1, g2, g3, g4, g5, g6, g7, g8⟩, _, _⟩ := hrest
  have hpsF' : psF' = psF := by
    rw [g1] at hpsF
    exact Option.some.inj hpsF
  subst hpsF'
  constructor
  · intro hna
    have hcfd' : ((remove_card_from_deck e.game_state.deck card).1.getD card).isAction
        = false := by
      rw [hcfd]
      exact hna
    obtain ⟨q1, q2⟩ := g7 ⟨hactive, hcount, hcfd'⟩
    refine ⟨q1, ?_⟩
    rw [q2]
    by_cases hone : ps0.flip_three_count = 1
    · rw [if_pos (by simp [hone])]
      simp [hone]
    · rw [if_neg (by simpa using sub_ne_zero_of_ne hone)]
      simp [hactive, hone]
  · intro hia
    have hcfd' : ¬ (ps0.flip_three_active = true ∧ 0 < ps0.flip_three_count
        ∧ ((remove_card_from_deck e.game_state.deck card).1.getD card).isAction = false) := by
      rintro ⟨-, -, hc⟩
      rw [hcfd, hia] at hc
      simp at hc
    obtain ⟨q1, q2⟩ := g8 hcfd'
    rw [q2]
    exact ⟨q1, hactive⟩

/-- C3 witness: the per-deal Flip Three property at a concrete input (P0
under an active Flip Three with count 3 is dealt a number card). -/
theorem C3_flip_three_counting_witness :
    (((Card.number 906 1 : Card).isAction = false →
        (getPlayerD f3d.game_state "P0").flip_three_count
            = (getPlayerD f3c.game_state "P0").flip_three_count - 1
        ∧ ((getPlayerD f3d.game_state "P0").flip_three_active = true
            ↔ (getPlayerD f3c.game_state "P0").flip_three_count ≠ 1))
      ∧ ((Card.number 906 1 : Card).isAction = true →
          (getPlayerD f3d.game_state "P0").flip_three_count
              = (getPlayerD f3c.game_state "P0").flip_three_count
          ∧ (getPlayerD f3d.game_state "P0").flip_three_active = true))
    ∧ ((getPlayerD f3b.game_state "P0").flip_three_active = true
        ∧ (getPlayerD f3b.game_state "P0").flip_three_count = 3)
    ∧ ((getPlayerD f3c.game_state "P0").flip_three_active = true
        ∧ (getPlayerD f3c.game_state "P0").flip_three_count = 3)
    ∧ ((getPlayerD f3d.game_state "P0").flip_three_active = true
        ∧ (getPlayerD f3d.game_state "P0").flip_three_count = 2)
    ∧ ((getPlayerD f3e.game_state "P0").flip_three_active = true
        ∧ (getPlayerD f3e.game_state "P0").flip_three_count = 1)
    ∧ ((getPlayerD f3f.game_state "P0").flip_three_active = false
        ∧ (getPlayerD f3f.game_state "P0").flip_three_count = 0) :=
  C3_flip_three_counting idShuffle f3c f3d "P0" (Card.number 906 1)
    ((f3c.game_state.current_round).getD { round_number := 0, dealer_id := "" })
    (getPlayerD f3c.game_state "P0") (by decide) (by decide) (by decide) (by decide)
    (by decide) (getPlayerD f3d.game_state "P0") (by decide)

/-- C9: with `current_round` cleared, every per-round mutating call —
`deal_card_to_player`, `apply_action_card_effect`, `player_hit`,
`player_stay`, `use_second_chance`, `end_round` — fails immediately with the
"No active round" error (raised before any state is touched, so the game
state is left unchanged). -/
theorem C9_no_active_round_rejected (shuffle : List Card → List Card) (e : Engine)
    (h : e.game_state.current_round = none) (pid tpid : String) (card : Card)
    (a : ActionType) (o : Option String) :
    deal_card_to_player shuffle e pid card = .error "No active round"
    ∧ apply_action_card_effect e a tpid o = .error "No active round"
    ∧ player_hit e pid = .error "No active round"
    ∧ player_stay e pid = .error "No active round"
    ∧ use_second_chance e pid card = .error "No active round"
    ∧ end_round e = .error "No active round" := by
  unfold deal_card_to_player apply_action_card_effect player_hit player_stay
    use_second_chance end_round
  rw [h]
  exact ⟨rfl, rfl, rfl, rfl, rfl, rfl⟩

/-- C9 witness: right after `start_new_game` (no round yet), each per-round
call fails with the "No active round" error. -/
theorem C9_no_active_round_rejected_witness :
    deal_card_to_player idShuffle startOnly "P0" (Card.number 900 5)
        = .error "No active round"
    ∧ apply_action_card_effect startOnly ActionType.freeze "P0" none
        = .error "No active round"
    ∧ player_hit startOnly "P0" = .error "No active round"
    ∧ player_stay startOnly "P0" = .error "No active round"
    ∧ use_second_chance startOnly "P0" (Card.number 900 5) = .error "No active round"
    ∧ end_round startOnly = .error "No active round" :=
  C9_no_active_round_rejected idShuffle startOnly (by decide) "P0" "P0"
    (Card.number 900 5) ActionType.freeze none

/-- C8 witness: the staying validator at concrete inputs — a stayed player is
denied with the specific reason. -/
theorem C8_validate_player_can_stay_spec_witness :
    (validate_player_can_stay stayedPS emptyRound).error_message
      = some "Player has already stayed" :=
  (C8_validate_player_can_stay_spec stayedPS emptyRound).2.1 (by decide)

/-- C10: `apply_action_card_effect` rejects a Freeze or Flip Three exactly
when the target player has already stayed — and never because the target is
busted: for every busted, not-stayed target the call succeeds, and a Freeze
then marks the target stayed, recomputes `round_score` from the target's
hand (replacing the 0 written at bust time) and adds that score to
`total_score`. -/
theorem C10_freeze_flip3_reject_iff_stayed (e : Engine) (tpid : String) (o : Option String)
    (a : ActionType) (r : RoundState) (ts : PlayerState)
    (hr : e.game_state.current_round = some r)
    (hts : lookupPS r.player_states tpid = some ts)
    (ha : a = ActionType.freeze ∨ a = ActionType.flip_three)
    (hall : ∀ kv ∈ r.player_states, isOkE (findPlayerName e.game_state kv.1) = true)
    (horig : (match o with
              | some oo => oo == tpid || isOkE (findPlayerName e.game_state oo)
              | none => true) = true) :
    (ts.has_stayed = true →
      apply_action_card_effect e a tpid o
        = .error ("Cannot apply " ++ a.value ++ " to " ++ tpid
            ++ " - player has already stayed"))
    ∧ (ts.has_stayed = false → ts.is_busted = true →
        ∃ e2, apply_action_card_effect e a tpid o = .ok e2
          ∧ (a = ActionType.freeze →
              ∃ ts2, getPlayerAnywhere e2.game_state tpid = some ts2
                ∧ ts2.has_stayed = true
                ∧ ts2.is_busted = true
                ∧ ts2.round_score = (calculate_score ts.cards_in_hand).final_score
                ∧ ts2.total_score
                    = ts.total_score + (calculate_score ts.cards_in_hand).final_score)) := by
  constructor
  · intro hstay
    clear horig
    unfold apply_action_card_effect
    rw [hr]
    dsimp only
    rw [hts]
    dsimp only
    rw [if_pos (show (ts.has_stayed && (a == ActionType.freeze || a == ActionType.flip_three)) = true by rcases ha with h | h <;> rw [h, hstay] <;> rfl)]
  · intro hstay hbust
    rcases ha with h | h
    · subst h
      obtain ⟨e2, h1, h2⟩ := apply_freeze_ok e tpid o r hr ts hts hstay hall horig
      exact ⟨e2, h1, fun _ => ⟨freezeAdjust ts, h2, rfl, hbust, rfl, rfl⟩⟩
    · subst h
      obtain ⟨e2, h1⟩ := apply_flip3_ok e tpid o r hr ts hts hstay hall horig
      exact ⟨e2, h1, fun hc => nomatch hc⟩

/-- C10 witness: on the concrete trace where P0 just busted with two 5s, a
Freeze on P0 succeeds and banks the recomputed score. -/
theorem C10_freeze_flip3_reject_iff_stayed_witness :
    ∃ e2, apply_action_card_effect d5b ActionType.freeze "P0" none = .ok e2
      ∧ ∃ ts2, getPlayerAnywhere e2.game_state "P0" = some ts2
          ∧ ts2.has_stayed = true
          ∧ ts2.is_busted = true
          ∧ ts2.round_score = (calculate_score (psOfD d5b "P0").cards_in_hand).final_score
          ∧ ts2.total_score = (psOfD d5b "P0").total_score
              + (calculate_score (psOfD d5b "P0").cards_in_hand).final_score := by
  obtain ⟨e2, h1, h2⟩ := (C10_freeze_flip3_reject_iff_stayed d5b "P0" none ActionType.freeze
      (roundOfD d5b) (psOfD d5b "P0") (by decide) (by decide) (Or.inl rfl)
      (by decide) (by decide)).2 (by decide) (by decide)
  exact ⟨e2, h1, h2 rfl⟩

/-- C5 (corrected): a Freeze applied to the only player who has neither
stayed nor busted does end the round within the same call (round archived,
`current_round` cleared, round marked complete) — but the recorded
`end_reason` is `player_busted` whenever any player busted earlier in the
round; `all_stayed` is recorded only when nobody busted, contrary to the
claim's unconditional `all_stayed`. -/
theorem C5_freeze_last_active_ends_round (e e2 : Engine) (tpid : String) (o : Option String)
    (r : RoundState) (ts : PlayerState)
    (hr : e.game_state.current_round = some r)
    (hts : lookupPS r.player_states tpid = some ts)
    (hnd : (r.player_states.map Prod.fst).Nodup)
    (hothers : ∀ kv ∈ r.player_states, (kv.1 == tpid) = false
        → (kv.2.has_stayed || kv.2.is_busted) = true)
    (h : apply_action_card_effect e ActionType.freeze tpid o = .ok e2) :
    e2.game_state.current_round = none
    ∧ ∃ rC, e2.game_state.round_history = e.game_state.round_history ++ [rC]
        ∧ rC.is_complete = true
        ∧ rC.end_reason
            = some (if r.player_states.any (fun kv => kv.2.is_busted) = true
                    then RoundEndReason.player_busted
                    else RoundEndReason.all_stayed) := by
  have hall1 : (updatePS r.player_states tpid freezeAdjust).all
      (fun kv => kv.2.has_stayed || kv.2.is_busted) = true :=
    all_updatePS_nodup _ _ _ _ hnd hothers (fun k p _ => rfl)
  have hend : check_round_end_condition (r.updatePlayer tpid freezeAdjust) = true := by
    unfold check_round_end_condition
    show ((updatePS r.player_states tpid freezeAdjust).all
        (fun kv => kv.2.has_stayed || kv.2.is_busted) || _) = true
    rw [hall1]
    rfl
  have hany : (r.updatePlayer tpid freezeAdjust).player_states.any (fun kv => kv.2.is_busted)
      = r.player_states.any (fun kv => kv.2.is_busted) :=
    any_updatePS_congr _ _ _ _ (fun k p => rfl)
  unfold apply_action_card_effect at h
  rw [hr] at h
  dsimp only at h
  rw [hts] at h
  dsimp only at h
  split at h
  · cases h
  split at h
  · cases h
  unfold apply_action_card at h
  rw [hr] at h
  dsimp only at h
  rw [hts] at h
  dsimp only at h
  split at h
  · cases h
  split at h
  · cases h
  rw [if_pos hend] at h
  obtain ⟨s1, s2, _, _, _, _, _, _⟩ :=
    end_round_spec _ e2 (r.updatePlayer tpid freezeAdjust) rfl h
  refine ⟨s1, completeRound (r.updatePlayer tpid freezeAdjust), s2,
    completeRound_complete _, ?_⟩
  rw [completeRound_reason]
  by_cases hb : r.player_states.any (fun kv => kv.2.is_busted) = true
  · have hL : determine_round_end_reason (r.updatePlayer tpid freezeAdjust)
        = some RoundEndReason.player_busted := by
      unfold determine_round_end_reason
      rw [if_pos (show ((r.updatePlayer tpid freezeAdjust).player_states.any
          (fun kv => kv.2.is_busted)) = true from hany.trans hb)]
    rw [hL, if_pos hb]
  · have hb2 : r.player_states.any (fun kv => kv.2.is_busted) = false := by
      cases hc : r.player_states.any (fun kv => kv.2.is_busted)
      · rfl
      · exact absurd hc hb
    have hL : determine_round_end_reason (r.updatePlayer tpid freezeAdjust)
        = some RoundEndReason.all_stayed := by
      unfold determine_round_end_reason
      rw [if_neg (show ¬ (((r.updatePlayer tpid freezeAdjust).player_states.any
          (fun kv => kv.2.is_busted)) = true) by rw [hany, hb2]; exact Bool.false_ne_true)]
      rw [if_pos (show ((r.updatePlayer tpid freezeAdjust).player_states.all
          (fun kv => kv.2.has_stayed || kv.2.is_busted)) = true from hall1)]
    rw [hL, if_neg hb]

/-- C5 counterexample: in `d5b` player P0 is busted and P1 is the only
unresolved player; the Freeze on P1 ends the round inside the call, but the
round is recorded with `end_reason = player_busted`, not `all_stayed`. -/
theorem C5_freeze_last_active_reason_counterexample :
    (∀ kv ∈ (roundOfD d5b).player_states, (kv.1 == "P1") = false
        → (kv.2.has_stayed || kv.2.is_busted) = true)
    ∧ apply_action_card_effect d5b ActionType.freeze "P1" none = .ok frz1
    ∧ frz1.game_state.current_round = none
    ∧ (frz1.game_state.round_history.map (fun rr => rr.end_reason))
        = [some RoundEndReason.player_busted] := by
  decide

/-- C5 witness: after P1 stays, a Freeze on P0 (the only unresolved player,
nobody busted) ends the round inside the call with `all_stayed`. -/
theorem C5_freeze_last_active_ends_round_witness :
    frzLast.game_state.current_round = none
    ∧ ∃ rC, frzLast.game_state.round_history = stayP1.game_state.round_history ++ [rC]
        ∧ rC.is_complete = true
        ∧ rC.end_reason = some RoundEndReason.all_stayed := by
  obtain ⟨h1, rC, h2, h3, h4⟩ := C5_freeze_last_active_ends_round stayP1 frzLast "P0" none
    (roundOfD stayP1) (psOfD stayP1 "P0") (by decide) (by decide) (by decide) (by decide)
    (by decide)
  refine ⟨h1, rC, h2, h3, ?_⟩
  rw [h4, if_neg (show ¬ ((roundOfD stayP1).player_states.any
      (fun kv => kv.2.is_busted) = true) by decide)]

/-- C6 (corrected): the `has_second_chance` flag is decoupled from physical
possession of a Second Chance card, so the claimed iff-invariant does not
hold. What the operations actually do: dealing a card (even a Second Chance
card) never changes the dealt player's flag; applying the Second Chance
effect leaves the target with the flag set; and `use_second_chance` clears
the flag while removing both the discarded duplicate and a Second Chance
card from the hand. -/
theorem C6_second_chance_flag_behaviour (shuffle : List Card → List Card)
    (e eD eA eU : Engine) (pid : String) (card : Card) (o : Option String)
    (cr : RoundState) (ps0 : PlayerState) :
    (deal_card_to_player shuffle e pid card = .ok eD →
      e.game_state.current_round = some cr →
      lookupPS cr.player_states pid = some ps0 →
      ∃ psF, getPlayerAnywhere eD.game_state pid = some psF
        ∧ psF.has_second_chance = ps0.has_second_chance)
    ∧ (apply_action_card_effect e ActionType.second_chance pid o = .ok eA →
      ∃ ts2, getPlayerAnywhere eA.game_state pid = some ts2
        ∧ ts2.has_second_chance = true)
    ∧ (use_second_chance e pid card = .ok eU →
      ∃ r ps sc, e.game_state.current_round = some r
        ∧ lookupPS r.player_states pid = some ps
        ∧ ps.has_second_chance = true
        ∧ sc.isSecondChance = true
        ∧ ∃ psF, getPlayerAnywhere eU.game_state pid = some psF
            ∧ psF.has_second_chance = false
            ∧ psF.cards_in_hand = (ps.cards_in_hand.erase card).erase sc) := by
  refine ⟨?_, ?_, ?_⟩
  · intro h hr hps
    obtain ⟨cr2, ps2, hr2, hps2, _, _, hrest⟩ := deal_spec shuffle e eD pid card h
    have hcr : cr2 = cr := Option.some.inj (hr2.symm.trans hr)
    subst hcr
    have hps0 : ps2 = ps0 := Option.some.inj (hps2.symm.trans hps)
    subst hps0
    dsimp only at hrest
    obtain ⟨_, ⟨psF, g1, _, _, g4, _, _, _, _⟩, _, _⟩ := hrest
    exact ⟨psF, g1, g4⟩
  · intro h
    exact apply_sc_flag e eA pid o h
  · intro h
    obtain ⟨r, ps, sc, h1, h2, h3, h4, ⟨psF, h5, h6, h7⟩, _, _, _⟩ :=
      use_second_chance_spec e eU pid card h
    exact ⟨r, ps, sc, h1, h2, h3, h4, psF, h5, h6, h7⟩

/-- C6 counterexample: after a Second Chance card is dealt to P0 (`dsc`), the
hand holds exactly one Second Chance card while `has_second_chance` is still
false — the claimed iff-invariant fails on a reachable state. -/
theorem C6_second_chance_flag_counterexample :
    deal_card_to_player idShuffle demoEngine "P0" (Card.action 902 ActionType.second_chance)
        = .ok dsc
    ∧ (psOfD dsc "P0").has_second_chance = false
    ∧ ((psOfD dsc "P0").cards_in_hand.filter Card.isSecondChance).length = 1 := by
  decide

/-- C6 witness: applying the effect on `dsc` sets P0's flag, and later
`use_second_chance` on the duplicate-5 state clears it while removing the
two cards from the hand. -/
theorem C6_second_chance_flag_behaviour_witness :
    (∃ ts2, getPlayerAnywhere scApplied.game_state "P0" = some ts2
        ∧ ts2.has_second_chance = true)
    ∧ (∃ r ps sc, scD2.game_state.current_round = some r
        ∧ lookupPS r.player_states "P0" = some ps
        ∧ ps.has_second_chance = true
        ∧ sc.isSecondChance = true
        ∧ ∃ psF, getPlayerAnywhere scUsed.game_state "P0" = some psF
            ∧ psF.has_second_chance = false
            ∧ psF.cards_in_hand = (ps.cards_in_hand.erase (Card.number 63 5)).erase sc) :=
  ⟨(C6_second_chance_flag_behaviour idShuffle dsc scApplied scApplied scApplied "P0"
      (Card.number 63 5) none emptyRound noPlayer).2.1 (by decide),
   (C6_second_chance_flag_behaviour idShuffle scD2 scUsed scUsed scUsed "P0"
      (Card.number 63 5) none emptyRound noPlayer).2.2 (by decide)⟩

/-- C7 (corrected): card conservation holds for applying action-card
effects, hitting, staying and ending a round, and a matched deal moves one
card from the deck to the hand — but the claim's universal conservation is
false: a deal whose card matches nothing in the deck *injects* the provided
card into play, and `use_second_chance` removes the discarded duplicate and
the Second Chance card from play entirely (they never reach the discard
pile). -/
theorem C7_card_conservation (shuffle : List Card → List Card)
    (e eD eA eH eS eU eE : Engine) (pid tpid : String) (card : Card)
    (a : ActionType) (o : Option String) (r : RoundState)
    (hperm : ∀ l, (shuffle l).Perm l) :
    (deal_card_to_player shuffle e pid card = .ok eD →
      liveCards eD.game_state
        = (match (remove_card_from_deck e.game_state.deck card).1 with
           | some _ => liveCards e.game_state
           | none => card ::ₘ liveCards e.game_state))
    ∧ (apply_action_card_effect e a tpid o = .ok eA →
        liveCards eA.game_state = liveCards e.game_state)
    ∧ (player_hit e pid = .ok eH → liveCards eH.game_state = liveCards e.game_state)
    ∧ (player_stay e pid = .ok eS → liveCards eS.game_state = liveCards e.game_state)
    ∧ (use_second_chance e pid card = .ok eU →
        ∃ sc, sc.isSecondChance = true
          ∧ liveCards e.game_state = card ::ₘ sc ::ₘ liveCards eU.game_state)
    ∧ (end_round e = .ok eE → e.game_state.current_round = some r →
        liveCards eE.game_state = liveCards e.game_state) := by
  refine ⟨?_, ?_, ?_, ?_, ?_, ?_⟩
  · intro h
    obtain ⟨cr, ps0, _, _, _, _, hrest⟩ := deal_spec shuffle e eD pid card h
    dsimp only at hrest
    obtain ⟨_, _, hcons, _⟩ := hrest
    exact hcons hperm
  · intro h
    exact (apply_effect_spec e eA a tpid o h).1
  · intro h
    rw [player_hit_spec e eH pid h]
  · intro h
    obtain ⟨r2, _, hcons, _⟩ := player_stay_spec e eS pid h
    exact hcons
  · intro h
    obtain ⟨r2, ps, sc, _, _, _, hscp, _, hcons, _, _⟩ :=
      use_second_chance_spec e eU pid card h
    exact ⟨sc, hscp, hcons⟩
  · intro h hr
    obtain ⟨s1, _, s3, _, s5, _, _, _⟩ := end_round_spec e eE r hr h
    rw [liveCards_none _ s1, s3, s5, completeRound_states, flattenHands_map_endAdjust,
      ← Multiset.coe_add, add_zero, liveCards_some e.game_state r hr, add_assoc]

/-- C7 counterexample: dealing a 13 (a value absent from the deck) injects a
new card — the live-card count grows from 94 to 95; and `use_second_chance`
deletes two cards from play — the count drops from 94 to 92. -/
theorem C7_card_conservation_counterexample :
    deal_card_to_player idShuffle demoEngine "P0" (Card.number 903 13) = .ok dinj
    ∧ Multiset.card (liveCards demoEngine.game_state) = 94
    ∧ Multiset.card (liveCards dinj.game_state) = 95
    ∧ use_second_chance scD2 "P0" (Card.number 63 5) = .ok scUsed
    ∧ Multiset.card (liveCards scD2.game_state) = 94
    ∧ Multiset.card (liveCards scUsed.game_state) = 92 := by
  decide

/-- C7 witness: `player_hit` (a pure log operation) conserves the live cards
on the concrete two-player game. -/
theorem C7_card_conservation_witness :
    liveCards hitEngine.game_state = liveCards demoEngine.game_state :=
  (C7_card_conservation idShuffle demoEngine demoEngine demoEngine hitEngine demoEngine
      demoEngine demoEngine "P0" "P0" (Card.number 0 0) ActionType.freeze none emptyRound
      (fun l => List.Perm.refl l)).2.2.1 (by decide)

/-- C4: the game completes exactly at round end. When `end_round` archives a
round in which some (post-adjustment) total reaches 200, the game becomes
complete, `winner_id` is the first player holding the maximal total (all
totals are bounded by the winner's, and every earlier entry is strictly
smaller), and a `GameEnded` event is appended; when nobody reaches 200 the
completion flag, winner and events (beyond `RoundEnded`) are untouched. No
other operation changes `is_complete` except by ending the round inside the
same call. -/
theorem C4_game_end_at_round_end (shuffle : List Card → List Card)
    (e eD eA eH eS eU e2 : Engine) (pid tpid : String) (card : Card)
    (a : ActionType) (o : Option String) (r : RoundState) :
    (end_round e = .ok e2 → e.game_state.current_round = some r →
      ((∃ kv ∈ (completeRound r).player_states, WINNING_SCORE ≤ kv.2.total_score) →
        e2.game_state.is_complete = true
        ∧ ∃ w psw pre post,
            e2.game_state.winner_id = some w
            ∧ (completeRound r).player_states = pre ++ (w, psw) :: post
            ∧ WINNING_SCORE ≤ psw.total_score
            ∧ (∀ kv ∈ (completeRound r).player_states,
                kv.2.total_score ≤ psw.total_score)
            ∧ (∀ kv ∈ pre, kv.2.total_score < psw.total_score)
            ∧ e2.events = e.events
                ++ [Event.roundEnded r.round_number (completeRound r).end_reason,
                    Event.gameEnded w])
      ∧ ((∀ kv ∈ (completeRound r).player_states, kv.2.total_score < WINNING_SCORE) →
        e2.game_state.is_complete = e.game_state.is_complete
        ∧ e2.game_state.winner_id = e.game_state.winner_id
        ∧ e2.events = e.events
            ++ [Event.roundEnded r.round_number (completeRound r).end_reason]))
    ∧ (deal_card_to_player shuffle e pid card = .ok eD →
        ((eD.game_state.is_complete = e.game_state.is_complete
            ∧ eD.game_state.round_history = e.game_state.round_history)
         ∨ (eD.game_state.current_round = none
            ∧ ∃ rX, eD.game_state.round_history = e.game_state.round_history ++ [rX])))
    ∧ (apply_action_card_effect e a tpid o = .ok eA →
        ((eA.game_state.is_complete = e.game_state.is_complete
            ∧ eA.game_state.round_history = e.game_state.round_history)
         ∨ (eA.game_state.current_round = none
            ∧ ∃ rX, eA.game_state.round_history = e.game_state.round_history ++ [rX])))
    ∧ (player_stay e pid = .ok eS →
        ((eS.game_state.is_complete = e.game_state.is_complete
            ∧ eS.game_state.round_history = e.game_state.round_history)
         ∨ (eS.game_state.current_round = none
            ∧ ∃ rX, eS.game_state.round_history = e.game_state.round_history ++ [rX])))
    ∧ (player_hit e pid = .ok eH →
        eH.game_state.is_complete = e.game_state.is_complete)
    ∧ (use_second_chance e pid card = .ok eU →
        eU.game_state.is_complete = e.game_state.is_complete
        ∧ eU.game_state.round_history = e.game_state.round_history) := by
  refine ⟨?_, ?_, ?_, ?_, ?_, ?_⟩
  · intro h hr
    obtain ⟨_, _, _, _, _, s6, s7, s8⟩ := end_round_spec e e2 r hr h
    constructor
    · intro hex
      cases hwin : check_win_condition (completeRound r).player_states with
      | none =>
        exfalso
        obtain ⟨kv, hkv, hge⟩ := hex
        have hlt := ((check_win_condition_spec _).1.mp hwin) kv hkv
        omega
      | some w =>
        rw [hwin] at s6 s7 s8
        simp only [Option.isSome_some, Bool.or_true] at s6
        obtain ⟨psw, pre, post, hdec, h200, hmax, hpre⟩ :=
          (check_win_condition_spec _).2 w hwin
        refine ⟨s6, w, psw, pre, post, s7, hdec, h200, hmax, hpre, ?_⟩
        rw [s8, List.append_assoc]
        rfl
    · intro hall
      cases hwin : check_win_condition (completeRound r).player_states with
      | some w =>
        exfalso
        obtain ⟨psw, pre, post, hdec, h200, _, _⟩ :=
          (check_win_condition_spec _).2 w hwin
        have hmem : (w, psw) ∈ (completeRound r).player_states := by
          rw [hdec]
          exact List.mem_append_right _ (List.mem_cons_self _ _)
        have hlt : psw.total_score < WINNING_SCORE := hall (w, psw) hmem
        omega
      | none =>
        rw [hwin] at s6 s7 s8
        simp only [Option.isSome_none, Bool.or_false] at s6
        refine ⟨s6, s7, ?_⟩
        rw [s8, List.append_nil]
  · intro h
    obtain ⟨cr, ps0, _, _, _, _, hrest⟩ := deal_spec shuffle e eD pid card h
    dsimp only at hrest
    obtain ⟨_, _, _, hcomp⟩ := hrest
    exact hcomp
  · intro h
    exact (apply_effect_spec e eA a tpid o h).2
  · intro h
    obtain ⟨r2, _, _, hcomp⟩ := player_stay_spec e eS pid h
    exact hcomp
  · intro h
    rw [player_hit_spec e eH pid h]
  · intro h
    obtain ⟨r2, ps, sc, _, _, _, _, _, _, h7, h8⟩ :=
      use_second_chance_spec e eU pid card h
    exact ⟨h7, h8⟩

set_option maxRecDepth 100000 in
/-- C4 witness: ending the round in which P0 reached 201 points completes
the game with a winner recorded. -/
theorem C4_game_end_at_round_end_witness :
    wonEngine.game_state.is_complete = true
    ∧ ∃ w, wonEngine.game_state.winner_id = some w := by
  obtain ⟨h1, w, psw, pre, post, hw, _⟩ :=
    ((C4_game_end_at_round_end idShuffle bigHand wonEngine wonEngine wonEngine wonEngine
        wonEngine wonEngine "P0" "P0" (Card.number 0 0) ActionType.freeze none
        (roundOfD bigHand)).1 (by decide) (by decide)).1 (by decide)
  exact ⟨h1, w, hw⟩

end Flip7
